import Mathlib

set_option maxRecDepth 4000

/-!
Verification of the metadata resolution and tree-building core of the
lsd directory lister (src/meta/mod.rs, unix configuration).

The filesystem is modelled as an oracle structure answering exactly the
std::fs queries the code performs; the functions of the source file are
translated one by one against that oracle.  Submodules of the crate that
are not part of the sources (filetype, size, name, flags, the exit-code
type, the error-printing macro) are modelled from the specification and
carry a doc comment saying so.
-/

namespace Lsd

/-- A system error, carrying the message the OS renders for it. -/
structure IOErr where
  msg : String
deriving Repr, DecidableEq

instance {ε α : Type} [DecidableEq ε] [DecidableEq α] : DecidableEq (Except ε α) := fun a b =>
  match a, b with
  | .ok x, .ok y =>
    if h : x = y then isTrue (by rw [h])
    else isFalse (fun hc => h (Except.ok.inj hc))
  | .error x, .error y =>
    if h : x = y then isTrue (by rw [h])
    else isFalse (fun hc => h (Except.error.inj hc))
  | .ok _, .error _ => isFalse (fun hc => Except.noConfusion hc)
  | .error _, .ok _ => isFalse (fun hc => Except.noConfusion hc)

/-- The classification returned by the raw file-type queries of std::fs. -/
inductive RawType where
  | file
  | dir
  | symlink
  | other
deriving Repr, DecidableEq

/-- The stat information returned by symlink_metadata and metadata. -/
structure Metadata where
  ftype : RawType
  len : Nat
  ino : Nat
  nlink : Nat
  mtimeSec : Int
  uid : Nat
  gid : Nat
  mode : Nat
deriving Repr, DecidableEq

/-- A filesystem path, kept as its list of components. -/
abbrev FsPath := List String

/-- Rendering of a path for diagnostics (Path::display). -/
def fsDisplay (p : FsPath) : String := String.intercalate "/" p

/-- Rust Path::file_name: the final component when it is a normal one,
none for paths ending in a parent or current-directory component. -/
def fsFileName (p : FsPath) : Option String :=
  match p.getLast? with
  | none => none
  | some s => if s = ".." ∨ s = "." ∨ s = "" then none else some s

/-- One std::fs::DirEntry: the path it names, and the outcome of its
file_type() query. -/
structure DirEntry where
  path : FsPath
  ftypeRes : Except IOErr RawType
deriving DecidableEq

/-- The filesystem as seen through the std::fs calls the code makes.
read_dir yields a list whose elements may themselves be errors, matching
the iterator of io::Result items in the source. -/
structure FS where
  symlinkMetadata : FsPath → Except IOErr Metadata
  metadata : FsPath → Except IOErr Metadata
  readDir : FsPath → Except IOErr (List (Except IOErr DirEntry))
  readLink : FsPath → Option String
  acl : FsPath → Option String

/-- Modelled from the spec: the flags module is not among the sources;
the display-mode enumeration of section 6. -/
inductive Display where
  | all
  | almostAll
  | visibleOnly
  | directoryOnly
  | systemProtected
deriving Repr, DecidableEq

/-- Modelled from the spec: the flags module is not among the sources;
the layout enumeration of section 6. -/
inductive Layout where
  | grid
  | tree
  | oneLine
deriving Repr, DecidableEq

/-- Modelled from the spec: the flags module is not among the sources;
only the four fields this file reads are kept. -/
structure Flags where
  display : Display
  layout : Layout
  dereference : Bool
  ignoreGlobs : String → Bool

/-- Modelled from the spec: ExitCode lives in the crate root, not among
the sources; ordered OK, then MinorIssue, then the more severe tier
reserved for the surrounding CLI. -/
inductive ExitCode where
  | OK
  | minorIssue
  | majorIssue
deriving Repr, DecidableEq

def ExitCode.toNat : ExitCode → Nat
  | .OK => 0
  | .minorIssue => 1
  | .majorIssue => 2

/-- Modelled from the spec: set_if_greater keeps the maximum of the two
codes under the ordering above. -/
def ExitCode.setIfGreater (a b : ExitCode) : ExitCode :=
  if a.toNat < b.toNat then b else a

/-- Modelled from the spec: filetype.rs is not among the sources; the
tagged variants listed in section 3 of the spec. -/
inductive FileType where
  | regularFile
  | directory
  | symLink (isDir : Bool)
  | blockDevice
  | charDevice
  | fifo
  | socket
  | special
deriving Repr, DecidableEq

/-- Modelled from the spec: classification from the chosen metadata; a
symlink's target-is-directory datum comes from the retained target
metadata when present. -/
def FileType.new (meta : Metadata) (symlinkMeta : Option Metadata) : FileType :=
  match meta.ftype with
  | .file => .regularFile
  | .dir => .directory
  | .symlink =>
    .symLink (match symlinkMeta with
      | some m => decide (m.ftype = RawType.dir)
      | none => false)
  | .other => .special

def FileType.isSymLink : FileType → Bool
  | .symLink _ => true
  | _ => false

/-- Modelled from the spec: name.rs is not among the sources; the
display name plus the resolved file-type tag. -/
structure Name where
  name : String
  fileType : FileType
deriving Repr, DecidableEq

/-- Modelled from the spec: the name is taken from the final path
component, falling back to the rendered path. -/
def Name.new (p : FsPath) (ft : FileType) : Name :=
  { name := (fsFileName p).getD (fsDisplay p), fileType := ft }

/-- Modelled from the spec: permissions.rs is not among the sources. -/
structure Permissions where
  mode : Nat
deriving Repr, DecidableEq

def Permissions.fromMeta (m : Metadata) : Permissions := ⟨m.mode⟩

/-- Modelled from the spec: owner.rs is not among the sources. -/
structure Owner where
  uid : Nat
  gid : Nat
deriving Repr, DecidableEq

def Owner.fromMeta (m : Metadata) : Owner := ⟨m.uid, m.gid⟩

/-- Modelled from the spec: date.rs is not among the sources. -/
structure Date where
  mtimeSec : Int
deriving Repr, DecidableEq

def Date.fromMeta (m : Metadata) : Date := ⟨m.mtimeSec⟩

/-- Modelled from the spec: size.rs is not among the sources; a byte
count read from the stat length. -/
structure Size where
  bytes : Nat
deriving Repr, DecidableEq

def Size.new (b : Nat) : Size := ⟨b⟩

def Size.fromMeta (m : Metadata) : Size := ⟨m.len⟩

def Size.get_bytes (s : Size) : Nat := s.bytes

/-- Modelled from the spec: inode.rs is not among the sources. -/
structure INode where
  ino : Nat
deriving Repr, DecidableEq

def INode.fromMeta (m : Metadata) : INode := ⟨m.ino⟩

/-- Modelled from the spec: links.rs is not among the sources. -/
structure Links where
  nlink : Nat
deriving Repr, DecidableEq

def Links.fromMeta (m : Metadata) : Links := ⟨m.nlink⟩

/-- Modelled from the spec: access_control.rs is not among the sources;
a best-effort ACL summary whose lookup failures are absorbed. -/
structure AccessControl where
  info : Option String
deriving Repr, DecidableEq

def AccessControl.for_path (fs : FS) (p : FsPath) : AccessControl := ⟨fs.acl p⟩

/-- Modelled from the spec: symlink.rs is not among the sources; the
resolved target read from the link, absent for non-links. -/
structure SymLink where
  target : Option String
deriving Repr, DecidableEq

def SymLink.fromPath (fs : FS) (p : FsPath) : SymLink := ⟨fs.readLink p⟩

/-- Modelled from the spec: indicator.rs is not among the sources; the
classifier suffix derived from the file type. -/
structure Indicator where
  symbol : String
deriving Repr, DecidableEq

def Indicator.fromFileType : FileType → Indicator
  | .directory => ⟨"/"⟩
  | .symLink _ => ⟨"@"⟩
  | .fifo => ⟨"|"⟩
  | .socket => ⟨"="⟩
  | _ => ⟨""⟩

/-- The per-entry fields of the Meta struct of the source, minus the
recursive content field. -/
structure MetaCore where
  name : Name
  path : FsPath
  permissions : Option Permissions
  date : Option Date
  owner : Option Owner
  fileType : FileType
  size : Option Size
  symlink : SymLink
  indicator : Indicator
  inode : Option INode
  links : Option Links
  accessControl : Option AccessControl
deriving Repr, DecidableEq

/-- The Meta struct of the source: the per-entry record plus the
optional ordered list of children. -/
inductive Meta where
  | mk (core : MetaCore) (content : Option (List Meta))

def Meta.core : Meta → MetaCore
  | .mk c _ => c

def Meta.content : Meta → Option (List Meta)
  | .mk _ ct => ct

def Meta.withContent : Meta → Option (List Meta) → Meta
  | .mk c _, ct => .mk c ct

def Meta.setName : Meta → String → Meta
  | .mk c ct, s => .mk { c with name := { c.name with name := s } } ct

def Meta.name (m : Meta) : Name := m.core.name

def Meta.path (m : Meta) : FsPath := m.core.path

def Meta.fileType (m : Meta) : FileType := m.core.fileType

def Meta.size (m : Meta) : Option Size := m.core.size

def Meta.permissions (m : Meta) : Option Permissions := m.core.permissions

def Meta.date (m : Meta) : Option Date := m.core.date

def Meta.owner (m : Meta) : Option Owner := m.core.owner

def Meta.symlink (m : Meta) : SymLink := m.core.symlink

def Meta.inode (m : Meta) : Option INode := m.core.inode

def Meta.links (m : Meta) : Option Links := m.core.links

def Meta.accessControl (m : Meta) : Option AccessControl := m.core.accessControl

/-- The optional-attribute group is fully populated. -/
def Meta.allSome (m : Meta) : Bool :=
  m.core.inode.isSome && m.core.links.isSome && m.core.size.isSome &&
  m.core.date.isSome && m.core.owner.isSome && m.core.permissions.isSome &&
  m.core.accessControl.isSome

/-- The optional-attribute group is fully absent. -/
def Meta.allNone (m : Meta) : Bool :=
  m.core.inode.isNone && m.core.links.isNone && m.core.size.isNone &&
  m.core.date.isNone && m.core.owner.isNone && m.core.permissions.isNone &&
  m.core.accessControl.isNone

/-- Modelled from the spec: the print_error macro lives in the crate
root, not among the sources; the diagnostic format of section 6. -/
def printError (p : FsPath) (e : IOErr) : String :=
  fsDisplay p ++ ": " ++ e.msg ++ "."

/-- The broken-link diagnostic written directly by from_path. -/
def brokenLinkMsg (p : FsPath) (e : IOErr) : String :=
  "lsd: " ++ fsDisplay p ++ ": " ++ e.msg ++ "\n"

/-- Embedding of Meta::from_path (unix configuration): initial
symlink-aware stat, symlink target handling under the dereference flag,
broken-link degradation, and the all-or-nothing optional attribute
group.  The second component collects what the call writes to the error
stream. -/
def Meta.from_path (fs : FS) (path : FsPath) (dereference : Bool) :
    Except IOErr Meta × List String :=
  match fs.symlinkMetadata path with
  | .error e => (.error e, [])
  | .ok md =>
    let st : Metadata × Option Metadata × Bool × List String :=
      if md.ftype = RawType.symlink then
        match fs.metadata path with
        | .ok m =>
          if dereference then (m, none, false, []) else (md, some m, false, [])
        | .error e =>
          if dereference then (md, none, true, [brokenLinkMsg path e])
          else (md, none, false, [])
      else (md, none, false, [])
    match st with
    | (metadata, symlink_meta, broken_link, log) =>
      let owner := Owner.fromMeta metadata
      let permissions := Permissions.fromMeta metadata
      let file_type := FileType.new metadata symlink_meta
      let name := Name.new path file_type
      match broken_link with
      | true =>
        (.ok (Meta.mk
          { name := name, path := path, permissions := none, date := none,
            owner := none, fileType := file_type, size := none,
            symlink := SymLink.fromPath fs path,
            indicator := Indicator.fromFileType file_type,
            inode := none, links := none, accessControl := none } none), log)
      | false =>
        (.ok (Meta.mk
          { name := name, path := path,
            permissions := some permissions,
            date := some (Date.fromMeta metadata),
            owner := some owner, fileType := file_type,
            size := some (Size.fromMeta metadata),
            symlink := SymLink.fromPath fs path,
            indicator := Indicator.fromFileType file_type,
            inode := some (INode.fromMeta metadata),
            links := some (Links.fromMeta metadata),
            accessControl := some (AccessControl.for_path fs path) } none), log)

/-- Rust str::starts_with for the single dot character, evaluated on the
character data of the name. -/
def startsWithDot (nm : String) : Bool :=
  match nm.data with
  | [] => false
  | c :: _ => c == '.'

/-- The display-mode filter of the per-entry loop; on unix is_system is
always false, and is_hidden is the leading-dot convention. -/
def displaySkip (d : Display) (nm : String) : Bool :=
  let is_hidden := startsWithDot nm
  let is_system := false
  match d with
  | .all => is_system
  | .almostAll => is_system
  | .visibleOnly => is_hidden || is_system
  | _ => false

/-- The file-type eligibility check of recurse_into: directories always,
directory symlinks except in one-line layout, nothing else. -/
def eligibleType (ft : FileType) (layout : Layout) : Bool :=
  match ft with
  | .directory => true
  | .symLink true => decide (layout ≠ Layout.oneLine)
  | _ => false

/-- Embedding of the per-entry for-loop of Meta::recurse_into;
recurseChild stands for the recursive call at depth - 1.  Accumulates
the content list, the exit code, and the reported diagnostics. -/
def recurseLoop (fs : FS) (flags : Flags)
    (recurseChild : Meta → Except IOErr (Option (List Meta) × ExitCode) × List String) :
    List (Except IOErr DirEntry) → List Meta → ExitCode → List String →
    Except IOErr (Option (List Meta) × ExitCode) × List String
  | [], content, exit_code, log => (.ok (some content, exit_code), log)
  | .error e :: _, _, _, log => (.error e, log)
  | .ok entry :: rest, content, exit_code, log =>
    match fsFileName entry.path with
    | none => (.error ⟨"invalid file name"⟩, log)
    | some nm =>
      if flags.ignoreGlobs nm then
        recurseLoop fs flags recurseChild rest content exit_code log
      else if displaySkip flags.display nm then
        recurseLoop fs flags recurseChild rest content exit_code log
      else
        match Meta.from_path fs entry.path flags.dereference with
        | (.error err, flog) =>
          recurseLoop fs flags recurseChild rest content
            (exit_code.setIfGreater .minorIssue)
            (log ++ flog ++ [printError entry.path err])
        | (.ok entry_meta, flog) =>
          let log := log ++ flog
          let derefStep := fun (_ : Unit) =>
            if flags.dereference || !entry_meta.fileType.isSymLink then
              match recurseChild entry_meta with
              | (.ok (ct, rec_exit_code), rlog) =>
                recurseLoop fs flags recurseChild rest
                  (content ++ [entry_meta.withContent ct])
                  (exit_code.setIfGreater rec_exit_code) (log ++ rlog)
              | (.error err, rlog) =>
                recurseLoop fs flags recurseChild rest content
                  (exit_code.setIfGreater .minorIssue)
                  (log ++ rlog ++ [printError entry.path err])
            else
              recurseLoop fs flags recurseChild rest
                (content ++ [entry_meta]) exit_code log
          if flags.layout = Layout.tree ∧ flags.display = Display.directoryOnly then
            match entry.ftypeRes with
            | .error e => (.error e, log)
            | .ok ft =>
              if ft = RawType.dir then derefStep ()
              else recurseLoop fs flags recurseChild rest content exit_code log
          else derefStep ()

/-- Embedding of Meta::recurse_into (unix configuration): depth guard,
display and file-type eligibility, directory-open failure handling, dot
and dot-dot synthesis, and the per-entry loop. -/
def Meta.recurse_into (fs : FS) (self : Meta) (depth : Nat) (flags : Flags) :
    Except IOErr (Option (List Meta) × ExitCode) × List String :=
  match depth with
  | 0 => (.ok (none, .OK), [])
  | d + 1 =>
    if flags.display = Display.directoryOnly ∧ flags.layout ≠ Layout.tree then
      (.ok (none, .OK), [])
    else if eligibleType self.fileType flags.layout = false then
      (.ok (none, .OK), [])
    else
      match fs.readDir self.path with
      | .error err => (.ok (none, .minorIssue), [printError self.path err])
      | .ok entries =>
        let pseudo : Except (IOErr × List String) (List Meta × List String) :=
          if (flags.display = Display.all ∨ flags.display = Display.systemProtected)
              ∧ flags.layout ≠ Layout.tree then
            match Meta.from_path fs (self.path ++ [".."]) flags.dereference with
            | (.error e, plog) => .error (e, plog)
            | (.ok parent_meta, plog) =>
              .ok ([self.setName ".", parent_meta.setName ".."], plog)
          else .ok ([], [])
        match pseudo with
        | .error (e, plog) => (.error e, plog)
        | .ok (content₀, log₀) =>
          recurseLoop fs flags (fun m => Meta.recurse_into fs m d flags)
            entries content₀ ExitCode.OK log₀

/-- Embedding of the for-entry sum of Meta::calculate_total_file_size;
sizeOfEntry stands for the recursive call on an entry's path. -/
def walkSize (sizeOfEntry : FsPath → Nat × List String) (parent : FsPath) :
    List (Except IOErr DirEntry) → Nat × List String
  | [] => (0, [])
  | .error err :: rest =>
    let r := walkSize sizeOfEntry parent rest
    (r.1, printError parent err :: r.2)
  | .ok entry :: rest =>
    let s := sizeOfEntry entry.path
    let r := walkSize sizeOfEntry parent rest
    (s.1 + r.1, s.2 ++ r.2)

/-- Embedding of Meta::calculate_total_file_size.  The fuel argument
models the finiteness of the on-disk directory tree: the source
recursion is bounded by the depth of the real filesystem, which the
oracle model cannot guarantee by itself. -/
def Meta.calculate_total_file_size (fs : FS) : Nat → FsPath → Nat × List String
  | 0, _ => (0, [])
  | fuel + 1, path =>
    match fs.symlinkMetadata path with
    | .error err => (0, [printError path err])
    | .ok metadata =>
      if metadata.ftype = RawType.file then
        (metadata.len, [])
      else if metadata.ftype = RawType.dir then
        match fs.readDir path with
        | .error err => (metadata.len, [printError path err])
        | .ok entries =>
          let r := walkSize (fun p => Meta.calculate_total_file_size fs fuel p)
            path entries
          (metadata.len + r.1, r.2)
      else (0, [])

mutual

/-- Embedding of Meta::calculate_total_size: post-order size
aggregation, with the fallback filesystem re-walk for directories whose
content was never materialized.  Fuel only feeds the fallback walk. -/
def Meta.calculate_total_size (fs : FS) (fuel : Nat) : Meta → Meta × List String
  | .mk core content =>
    if core.size.isNone then (.mk core content, [])
    else
      match core.fileType with
      | .directory =>
        match content with
        | some metas =>
          let start :=
            match core.size with
            | some size => size.get_bytes
            | none => 0
          let r := calcChildren fs fuel metas
          (.mk { core with size := some (Size.new (start + r.2.1)) } (some r.1),
            r.2.2)
        | none =>
          let w := Meta.calculate_total_file_size fs fuel core.path
          (.mk { core with size := some (Size.new w.1) } none, w.2)
      | _ => (.mk core content, [])

/-- The for-loop of calculate_total_size over the children: finalizes
each child, and returns the finalized children, the accumulated child
sizes, and the reported diagnostics. -/
def calcChildren (fs : FS) (fuel : Nat) : List Meta → List Meta × Nat × List String
  | [] => ([], 0, [])
  | x :: rest =>
    let xr := Meta.calculate_total_size fs fuel x
    let xsz :=
      match xr.1.size with
      | some size => size.get_bytes
      | none => 0
    let rr := calcChildren fs fuel rest
    (xr.1 :: rr.1, xsz + rr.2.1, xr.2 ++ rr.2.2)

end

/-! ## A concrete, symlink-free filesystem used to compare the two
size-computation paths on identical on-disk subtrees. -/

/-- A concrete directory tree of regular files and directories. -/
inductive FsTree where
  | file (len : Nat)
  | dir (len : Nat) (entries : List (String × FsTree))

/-- First entry with the given name, as the OS resolves a component. -/
def lookupEntry : List (String × FsTree) → String → Option FsTree
  | [], _ => none
  | e :: rest, nm => if e.1 = nm then some e.2 else lookupEntry rest nm

/-- Resolution of a path inside a concrete tree. -/
def FsTree.lookup : FsTree → FsPath → Option FsTree
  | t, [] => some t
  | .file _, _ :: _ => none
  | .dir _ es, nm :: rest =>
    match lookupEntry es nm with
    | some child => child.lookup rest
    | none => none

/-- The stat record a concrete tree node answers with. -/
def FsTree.metaOf : FsTree → Metadata
  | .file n =>
    { ftype := .file, len := n, ino := 0, nlink := 1, mtimeSec := 0,
      uid := 0, gid := 0, mode := 420 }
  | .dir n _ =>
    { ftype := .dir, len := n, ino := 0, nlink := 2, mtimeSec := 0,
      uid := 0, gid := 0, mode := 493 }

/-- The filesystem oracle backed by a concrete tree rooted at the empty
path.  read_dir never yields dot entries, as in std::fs. -/
def treeFS (root : FsTree) : FS where
  symlinkMetadata := fun p =>
    match root.lookup p with
    | some t => .ok t.metaOf
    | none => .error ⟨"No such file or directory (os error 2)"⟩
  metadata := fun p =>
    match root.lookup p with
    | some t => .ok t.metaOf
    | none => .error ⟨"No such file or directory (os error 2)"⟩
  readDir := fun p =>
    match root.lookup p with
    | some (.dir _ es) =>
      .ok (es.map (fun e => .ok { path := p ++ [e.1], ftypeRes := .ok e.2.metaOf.ftype }))
    | some (.file _) => .error ⟨"Not a directory (os error 20)"⟩
    | none => .error ⟨"No such file or directory (os error 2)"⟩
  readLink := fun _ => none
  acl := fun _ => some ""

/-- A name an OS directory entry can carry. -/
def validName (s : String) : Bool :=
  decide (s ≠ "" ∧ s ≠ "." ∧ s ≠ "..")

mutual

/-- Well-formed concrete trees: every entry name is a real component
name, and sibling names are distinct. -/
def FsTree.wf : FsTree → Bool
  | .file _ => true
  | .dir _ es => wfEntries es

def wfEntries : List (String × FsTree) → Bool
  | [] => true
  | e :: rest =>
    validName e.1 && e.2.wf && rest.all (fun e2 => e2.1 != e.1) && wfEntries rest

end

mutual

/-- Depth of a concrete tree, counting directory levels. -/
def FsTree.height : FsTree → Nat
  | .file _ => 0
  | .dir _ es => heightEntries es + 1

def heightEntries : List (String × FsTree) → Nat
  | [] => 0
  | e :: rest => max e.2.height (heightEntries rest)

end

mutual

/-- The intended total size of a subtree: every node's own stat length,
summed. -/
def FsTree.totalSize : FsTree → Nat
  | .file n => n
  | .dir n es => n + totalEntries es

def totalEntries : List (String × FsTree) → Nat
  | [] => 0
  | e :: rest => e.2.totalSize + totalEntries rest

end

/-- Flags with an ignore matcher that never matches. -/
def lsdFlags (display : Display) (layout : Layout) (deref : Bool) : Flags :=
  { display := display, layout := layout, dereference := deref,
    ignoreGlobs := fun _ => false }

/-- The primary size path: resolve the root, expand it fully, attach the
children, then aggregate sizes over the materialized tree.  The driver
composition (resolve, expand, attach, finalize) follows the control flow
of spec section 2; none is answered when a hard error escapes. -/
def primarySize (t : FsTree) (flags : Flags) (depth fuel : Nat) : Option (Option Size) :=
  match Meta.from_path (treeFS t) [] flags.dereference with
  | (.error _, _) => none
  | (.ok m, _) =>
    match Meta.recurse_into (treeFS t) m depth flags with
    | (.error _, _) => none
    | (.ok (ct, _), _) =>
      some ((Meta.calculate_total_size (treeFS t) fuel (m.withContent ct)).1.size)

/-- The fallback size path: resolve the root but leave its content
unmaterialized (depth-truncated), then aggregate, which re-walks the
filesystem. -/
def truncatedSize (t : FsTree) (flags : Flags) (fuel : Nat) : Option (Option Size) :=
  match Meta.from_path (treeFS t) [] flags.dereference with
  | (.error _, _) => none
  | (.ok m, _) =>
    some ((Meta.calculate_total_size (treeFS t) fuel (m.withContent none)).1.size)

/-! ## Concrete filesystems used by counterexamples and witnesses. -/

/-- A placeholder record, only reached on branches ruled out by the
accompanying proofs. -/
def metaFallback : Meta :=
  Meta.mk
    { name := Name.new [] .special, path := [], permissions := none,
      date := none, owner := none, fileType := .special, size := none,
      symlink := ⟨none⟩, indicator := ⟨""⟩, inode := none, links := none,
      accessControl := none } none

/-- Root directory with one subdirectory named c whose directory stream
yields a failing entry. -/
def fsC1 : FS where
  symlinkMetadata := fun p =>
    if p = ([] : FsPath) then .ok ⟨.dir, 100, 0, 2, 0, 0, 0, 493⟩
    else if p = ["c"] then .ok ⟨.dir, 50, 0, 2, 0, 0, 0, 493⟩
    else .error ⟨"No such file or directory (os error 2)"⟩
  metadata := fun p =>
    if p = ([] : FsPath) then .ok ⟨.dir, 100, 0, 2, 0, 0, 0, 493⟩
    else if p = ["c"] then .ok ⟨.dir, 50, 0, 2, 0, 0, 0, 493⟩
    else .error ⟨"No such file or directory (os error 2)"⟩
  readDir := fun p =>
    if p = ([] : FsPath) then .ok [.ok ⟨["c"], .ok .dir⟩]
    else if p = ["c"] then .ok [.error ⟨"Input or output error (os error 5)"⟩]
    else .error ⟨"No such file or directory (os error 2)"⟩
  readLink := fun _ => none
  acl := fun _ => some ""

/-- The resolved root record of fsC1. -/
def metaC1 : Meta :=
  match (Meta.from_path fsC1 [] false).1 with
  | .ok m => m
  | .error _ => metaFallback

/-- The resolved record of the subdirectory c of fsC1. -/
def metaC1c : Meta :=
  match (Meta.from_path fsC1 ["c"] false).1 with
  | .ok m => m
  | .error _ => metaFallback

/-- A directory d whose parent path resolves to a symlink onto a
directory, so the dereference flag is observable on the dot-dot
pseudo-entry. -/
def fsC2 : FS where
  symlinkMetadata := fun p =>
    if p = ["d"] then .ok ⟨.dir, 100, 0, 2, 0, 0, 0, 493⟩
    else if p = ["d", ".."] then .ok ⟨.symlink, 5, 0, 1, 0, 0, 0, 511⟩
    else .error ⟨"No such file or directory (os error 2)"⟩
  metadata := fun p =>
    if p = ["d"] then .ok ⟨.dir, 100, 0, 2, 0, 0, 0, 493⟩
    else if p = ["d", ".."] then .ok ⟨.dir, 200, 0, 2, 0, 0, 0, 493⟩
    else .error ⟨"No such file or directory (os error 2)"⟩
  readDir := fun p =>
    if p = ["d"] then .ok []
    else .error ⟨"No such file or directory (os error 2)"⟩
  readLink := fun p => if p = ["d", ".."] then some "target" else none
  acl := fun _ => some ""

/-- The resolved record of directory d of fsC2, with dereference on. -/
def metaC2 : Meta :=
  match (Meta.from_path fsC2 ["d"] true).1 with
  | .ok m => m
  | .error _ => metaFallback

/-- Root directory whose directory stream yields a failing entry
directly. -/
def fsC4 : FS where
  symlinkMetadata := fun p =>
    if p = ([] : FsPath) then .ok ⟨.dir, 100, 0, 2, 0, 0, 0, 493⟩
    else .error ⟨"No such file or directory (os error 2)"⟩
  metadata := fun _ => .error ⟨"No such file or directory (os error 2)"⟩
  readDir := fun p =>
    if p = ([] : FsPath) then .ok [.error ⟨"Input or output error (os error 5)"⟩]
    else .error ⟨"No such file or directory (os error 2)"⟩
  readLink := fun _ => none
  acl := fun _ => some ""

/-- The resolved root record of fsC4. -/
def metaC4 : Meta :=
  match (Meta.from_path fsC4 [] false).1 with
  | .ok m => m
  | .error _ => metaFallback

/-- A directory that stats fine but whose directory stream cannot be
opened. -/
def fsC3 : FS where
  symlinkMetadata := fun p =>
    if p = ([] : FsPath) then .ok ⟨.dir, 4096, 0, 2, 0, 0, 0, 493⟩
    else .error ⟨"No such file or directory (os error 2)"⟩
  metadata := fun _ => .error ⟨"No such file or directory (os error 2)"⟩
  readDir := fun _ => .error ⟨"Permission denied (os error 13)"⟩
  readLink := fun _ => none
  acl := fun _ => some ""

/-- A path with a broken symlink at b: the link itself stats, its target
does not. -/
def fsC5 : FS where
  symlinkMetadata := fun p =>
    if p = ["b"] then .ok ⟨.symlink, 6, 7, 1, 3, 1000, 1000, 511⟩
    else .error ⟨"No such file or directory (os error 2)"⟩
  metadata := fun _ => .error ⟨"No such file or directory (os error 2)"⟩
  readDir := fun _ => .error ⟨"Not a directory (os error 20)"⟩
  readLink := fun p => if p = ["b"] then some "ccc.cc" else none
  acl := fun _ => some ""

/-! ## Claim theorems. -/

/-- C8: expand with a remaining depth of zero returns no content and the
OK severity, whatever the record, the filesystem, and the flags. -/
theorem recurse_into_depth_zero (fs : FS) (m : Meta) (flags : Flags) :
    Meta.recurse_into fs m 0 flags = (.ok (none, .OK), []) := rfl

/-- Whenever the initial symlink-aware stat succeeds, from_path returns
an ok record. -/
theorem from_path_ok_of_stat_ok (fs : FS) (path : FsPath) (deref : Bool)
    (md : Metadata) (h : fs.symlinkMetadata path = .ok md) :
    ∃ m log, Meta.from_path fs path deref = (.ok m, log) := by
  simp only [Meta.from_path, h]
  repeat' split
  all_goals exact ⟨_, _, rfl⟩

/-- C6: from_path fails exactly when the initial symlink-aware stat on
the path fails, and then with that very error; downstream failures never
fail the call. -/
theorem from_path_error_iff (fs : FS) (path : FsPath) (deref : Bool) (e : IOErr) :
    (Meta.from_path fs path deref).1 = .error e ↔
      fs.symlinkMetadata path = .error e := by
  constructor
  · intro h
    cases hstat : fs.symlinkMetadata path with
    | error e2 =>
      unfold Meta.from_path at h
      rw [hstat] at h
      simpa using h
    | ok md =>
      obtain ⟨m, log, hok⟩ := from_path_ok_of_stat_ok fs path deref md hstat
      rw [hok] at h
      simp at h
  · intro h
    unfold Meta.from_path
    rw [h]

/-- C6 witness at a concrete input: a missing path propagates the stat
error, and a broken-symlink path does not fail the call. -/
theorem from_path_error_iff_witness :
    (Meta.from_path fsC5 ["missing"] true).1
        = .error ⟨"No such file or directory (os error 2)"⟩
    ∧ ¬ (Meta.from_path fsC5 ["b"] true).1
        = .error ⟨"No such file or directory (os error 2)"⟩ := by
  constructor
  · exact (from_path_error_iff fsC5 ["missing"] true
      ⟨"No such file or directory (os error 2)"⟩).mpr (by decide)
  · intro h
    have := (from_path_error_iff fsC5 ["b"] true
      ⟨"No such file or directory (os error 2)"⟩).mp h
    revert this
    decide

/-- C5: every record from_path returns has its optional-attribute group
all populated or all absent, the all-absent state holds exactly for a
broken symlink resolved with dereference on, and such a record still
identifies itself as a symlink through fileType, name, path and the
symlink field. -/
theorem from_path_attribute_group (fs : FS) (path : FsPath) (deref : Bool)
    (m : Meta) (log : List String)
    (h : Meta.from_path fs path deref = (.ok m, log)) :
    ((m.allSome = true ∧ m.allNone = false)
      ∨ (m.allSome = false ∧ m.allNone = true))
    ∧ (m.allNone = true ↔
        ∃ md e, fs.symlinkMetadata path = .ok md ∧ md.ftype = RawType.symlink
          ∧ fs.metadata path = .error e ∧ deref = true)
    ∧ (m.allNone = true →
        m.fileType = .symLink false ∧ m.path = path
          ∧ m.name.fileType = .symLink false
          ∧ m.symlink = SymLink.fromPath fs path) := by
  cases hstat : fs.symlinkMetadata path with
  | error e =>
    simp [Meta.from_path, hstat] at h
  | ok md =>
    by_cases hft : md.ftype = RawType.symlink
    · cases hm : fs.metadata path with
      | ok mm =>
        cases deref with
        | false =>
          simp [Meta.from_path, hstat, hft, hm] at h
          obtain ⟨h1, -⟩ := h
          subst h1
          refine ⟨Or.inl (by simp [Meta.allSome, Meta.allNone, Meta.core]), ?_, ?_⟩
          · simp [Meta.allNone, Meta.core, hstat, hm]
          · simp [Meta.allNone, Meta.core]
        | true =>
          simp [Meta.from_path, hstat, hft, hm] at h
          obtain ⟨h1, -⟩ := h
          subst h1
          refine ⟨Or.inl (by simp [Meta.allSome, Meta.allNone, Meta.core]), ?_, ?_⟩
          · simp [Meta.allNone, Meta.core, hstat, hm]
          · simp [Meta.allNone, Meta.core]
      | error e =>
        cases deref with
        | false =>
          simp [Meta.from_path, hstat, hft, hm] at h
          obtain ⟨h1, -⟩ := h
          subst h1
          refine ⟨Or.inl (by simp [Meta.allSome, Meta.allNone, Meta.core]), ?_, ?_⟩
          · simp [Meta.allNone, Meta.core, hstat, hm]
          · simp [Meta.allNone, Meta.core]
        | true =>
          simp [Meta.from_path, hstat, hft, hm] at h
          obtain ⟨h1, -⟩ := h
          subst h1
          refine ⟨Or.inr (by simp [Meta.allSome, Meta.allNone, Meta.core]), ?_, ?_⟩
          · simp [Meta.allNone, Meta.core, hstat, hm, hft]
          · intro _
            refine ⟨?_, ?_, ?_, ?_⟩
            · simp [Meta.fileType, Meta.core, FileType.new, hft]
            · simp [Meta.path, Meta.core]
            · simp [Meta.name, Meta.core, Name.new, FileType.new, hft]
            · simp [Meta.symlink, Meta.core]
    · simp [Meta.from_path, hstat, hft] at h
      obtain ⟨h1, -⟩ := h
      subst h1
      refine ⟨Or.inl (by simp [Meta.allSome, Meta.allNone, Meta.core]), ?_, ?_⟩
      · simp [Meta.allNone, Meta.core, hstat]
        intro h2
        exact fun h3 => absurd h2 hft
      · simp [Meta.allNone, Meta.core]

/-- The record of the broken symlink b of fsC5 under dereference. -/
def metaC5 : Meta :=
  match (Meta.from_path fsC5 ["b"] true).1 with
  | .ok m => m
  | .error _ => metaFallback

/-- C5 witness: the broken symlink of fsC5 resolved with dereference on
yields the all-absent state and a symlink file type. -/
theorem from_path_attribute_group_witness :
    metaC5.allSome = false ∧ metaC5.allNone = true
    ∧ metaC5.fileType = FileType.symLink false := by
  have hfp : Meta.from_path fsC5 ["b"] true
      = (.ok metaC5, (Meta.from_path fsC5 ["b"] true).2) := rfl
  have hres := from_path_attribute_group fsC5 ["b"] true metaC5
    ((Meta.from_path fsC5 ["b"] true).2) hfp
  have hnone : metaC5.allNone = true :=
    hres.2.1.mpr ⟨⟨.symlink, 6, 7, 1, 3, 1000, 1000, 511⟩,
      ⟨"No such file or directory (os error 2)"⟩, by decide, rfl, by decide, rfl⟩
  have hsome : metaC5.allSome = false := by
    rcases hres.1 with ⟨h1, h2⟩ | ⟨h1, h2⟩
    · rw [hnone] at h2; cases h2
    · exact h1
  exact ⟨hsome, hnone, (hres.2.2 hnone).1⟩

/-! ## Exit code arithmetic. -/

theorem setIfGreater_left_le (a b : ExitCode) :
    a.toNat ≤ (a.setIfGreater b).toNat := by
  cases a <;> cases b <;> decide

theorem setIfGreater_right_le (a b : ExitCode) :
    b.toNat ≤ (a.setIfGreater b).toNat := by
  cases a <;> cases b <;> decide

theorem setIfGreater_le (a b c : ExitCode) (ha : a.toNat ≤ c.toNat)
    (hb : b.toNat ≤ c.toNat) : (a.setIfGreater b).toNat ≤ c.toNat := by
  cases a <;> cases b <;> cases c <;> first | decide | exact ha | exact hb

theorem setIfGreater_OK_right (a : ExitCode) : a.setIfGreater .OK = a := by
  cases a <;> decide

/-! ## One-step unfolding of the per-entry loop. -/

/-- The loop may run the recursion-and-push step only when the
tree-plus-directory-only skip does not fire. -/
def treePass (flags : Flags) (entry : DirEntry) : Prop :=
  ¬ (flags.layout = Layout.tree ∧ flags.display = Display.directoryOnly)
    ∨ entry.ftypeRes = .ok RawType.dir

theorem recurseLoop_cons_badname (fs : FS) (flags : Flags) (rc) (entry rest)
    (content : List Meta) (code : ExitCode) (log : List String)
    (hname : fsFileName entry.path = none) :
    recurseLoop fs flags rc (.ok entry :: rest) content code log
      = (.error ⟨"invalid file name"⟩, log) := by
  simp only [recurseLoop, hname]

theorem recurseLoop_cons_ignored (fs : FS) (flags : Flags) (rc) (entry rest)
    (content : List Meta) (code : ExitCode) (log : List String) (nm : String)
    (hname : fsFileName entry.path = some nm)
    (hig : flags.ignoreGlobs nm = true) :
    recurseLoop fs flags rc (.ok entry :: rest) content code log
      = recurseLoop fs flags rc rest content code log := by
  simp only [recurseLoop, hname, hig, if_true]

theorem recurseLoop_cons_skip (fs : FS) (flags : Flags) (rc) (entry rest)
    (content : List Meta) (code : ExitCode) (log : List String) (nm : String)
    (hname : fsFileName entry.path = some nm)
    (hig : flags.ignoreGlobs nm = false)
    (hskip : displaySkip flags.display nm = true) :
    recurseLoop fs flags rc (.ok entry :: rest) content code log
      = recurseLoop fs flags rc rest content code log := by
  simp only [recurseLoop, hname, hig, hskip, Bool.false_eq_true, if_false, if_true]

theorem recurseLoop_cons_fperr (fs : FS) (flags : Flags) (rc) (entry rest)
    (content : List Meta) (code : ExitCode) (log : List String) (nm : String)
    (err : IOErr) (flog : List String)
    (hname : fsFileName entry.path = some nm)
    (hig : flags.ignoreGlobs nm = false)
    (hskip : displaySkip flags.display nm = false)
    (hfp : Meta.from_path fs entry.path flags.dereference = (.error err, flog)) :
    recurseLoop fs flags rc (.ok entry :: rest) content code log
      = recurseLoop fs flags rc rest content (code.setIfGreater .minorIssue)
          (log ++ flog ++ [printError entry.path err]) := by
  simp only [recurseLoop, hname, hig, hskip, hfp, Bool.false_eq_true, if_false]

theorem recurseLoop_cons_treeerr (fs : FS) (flags : Flags) (rc) (entry rest)
    (content : List Meta) (code : ExitCode) (log : List String) (nm : String)
    (em : Meta) (flog : List String) (e : IOErr)
    (hname : fsFileName entry.path = some nm)
    (hig : flags.ignoreGlobs nm = false)
    (hskip : displaySkip flags.display nm = false)
    (hfp : Meta.from_path fs entry.path flags.dereference = (.ok em, flog))
    (htree : flags.layout = Layout.tree ∧ flags.display = Display.directoryOnly)
    (hft : entry.ftypeRes = .error e) :
    recurseLoop fs flags rc (.ok entry :: rest) content code log
      = (.error e, log ++ flog) := by
  simp only [recurseLoop, hname, hig, hskip, hfp, Bool.false_eq_true, if_false,
    if_true]
  rw [if_pos htree, hft]

theorem recurseLoop_cons_treeskip (fs : FS) (flags : Flags) (rc) (entry rest)
    (content : List Meta) (code : ExitCode) (log : List String) (nm : String)
    (em : Meta) (flog : List String) (ft : RawType)
    (hname : fsFileName entry.path = some nm)
    (hig : flags.ignoreGlobs nm = false)
    (hskip : displaySkip flags.display nm = false)
    (hfp : Meta.from_path fs entry.path flags.dereference = (.ok em, flog))
    (htree : flags.layout = Layout.tree ∧ flags.display = Display.directoryOnly)
    (hft : entry.ftypeRes = .ok ft) (hnd : ft ≠ RawType.dir) :
    recurseLoop fs flags rc (.ok entry :: rest) content code log
      = recurseLoop fs flags rc rest content code (log ++ flog) := by
  simp only [recurseLoop, hname, hig, hskip, hfp, Bool.false_eq_true, if_false,
    if_true]
  rw [if_pos htree, hft]
  simp [hnd]

theorem recurseLoop_cons_rec_ok (fs : FS) (flags : Flags) (rc) (entry rest)
    (content : List Meta) (code : ExitCode) (log : List String) (nm : String)
    (em : Meta) (flog : List String) (ct : Option (List Meta))
    (rcode : ExitCode) (rlog : List String)
    (hname : fsFileName entry.path = some nm)
    (hig : flags.ignoreGlobs nm = false)
    (hskip : displaySkip flags.display nm = false)
    (hfp : Meta.from_path fs entry.path flags.dereference = (.ok em, flog))
    (htp : treePass flags entry)
    (hd : flags.dereference = true ∨ em.fileType.isSymLink = false)
    (hrc : rc em = (.ok (ct, rcode), rlog)) :
    recurseLoop fs flags rc (.ok entry :: rest) content code log
      = recurseLoop fs flags rc rest (content ++ [em.withContent ct])
          (code.setIfGreater rcode) (log ++ flog ++ rlog) := by
  have hd2 : (flags.dereference || !em.fileType.isSymLink) = true := by
    rcases hd with h | h <;> simp [h]
  rcases htp with htree | hft
  · simp only [recurseLoop, hname, hig, hskip, hfp, Bool.false_eq_true, if_false,
      if_true]
    rw [if_neg htree]
    simp [hd2, hrc]
  · by_cases htree : flags.layout = Layout.tree ∧ flags.display = Display.directoryOnly
    · simp only [recurseLoop, hname, hig, hskip, hfp, Bool.false_eq_true, if_false,
        if_true]
      rw [if_pos htree, hft]
      simp [hd2, hrc]
    · simp only [recurseLoop, hname, hig, hskip, hfp, Bool.false_eq_true, if_false,
        if_true]
      rw [if_neg htree]
      simp [hd2, hrc]

theorem recurseLoop_cons_rec_err (fs : FS) (flags : Flags) (rc) (entry rest)
    (content : List Meta) (code : ExitCode) (log : List String) (nm : String)
    (em : Meta) (flog : List String) (err : IOErr) (rlog : List String)
    (hname : fsFileName entry.path = some nm)
    (hig : flags.ignoreGlobs nm = false)
    (hskip : displaySkip flags.display nm = false)
    (hfp : Meta.from_path fs entry.path flags.dereference = (.ok em, flog))
    (htp : treePass flags entry)
    (hd : flags.dereference = true ∨ em.fileType.isSymLink = false)
    (hrc : rc em = (.error err, rlog)) :
    recurseLoop fs flags rc (.ok entry :: rest) content code log
      = recurseLoop fs flags rc rest content (code.setIfGreater .minorIssue)
          (log ++ flog ++ rlog ++ [printError entry.path err]) := by
  have hd2 : (flags.dereference || !em.fileType.isSymLink) = true := by
    rcases hd with h | h <;> simp [h]
  rcases htp with htree | hft
  · simp only [recurseLoop, hname, hig, hskip, hfp, Bool.false_eq_true, if_false,
      if_true]
    rw [if_neg htree]
    simp [hd2, hrc]
  · by_cases htree : flags.layout = Layout.tree ∧ flags.display = Display.directoryOnly
    · simp only [recurseLoop, hname, hig, hskip, hfp, Bool.false_eq_true, if_false,
        if_true]
      rw [if_pos htree, hft]
      simp [hd2, hrc]
    · simp only [recurseLoop, hname, hig, hskip, hfp, Bool.false_eq_true, if_false,
        if_true]
      rw [if_neg htree]
      simp [hd2, hrc]

theorem recurseLoop_cons_nopush (fs : FS) (flags : Flags) (rc) (entry rest)
    (content : List Meta) (code : ExitCode) (log : List String) (nm : String)
    (em : Meta) (flog : List String)
    (hname : fsFileName entry.path = some nm)
    (hig : flags.ignoreGlobs nm = false)
    (hskip : displaySkip flags.display nm = false)
    (hfp : Meta.from_path fs entry.path flags.dereference = (.ok em, flog))
    (htp : treePass flags entry)
    (hd : flags.dereference = false) (hsl : em.fileType.isSymLink = true) :
    recurseLoop fs flags rc (.ok entry :: rest) content code log
      = recurseLoop fs flags rc rest (content ++ [em]) code (log ++ flog) := by
  have hd2 : (flags.dereference || !em.fileType.isSymLink) = false := by
    simp [hd, hsl]
  rcases htp with htree | hft
  · simp only [recurseLoop, hname, hig, hskip, hfp, Bool.false_eq_true, if_false,
      if_true]
    rw [if_neg htree]
    simp [hd2]
  · by_cases htree : flags.layout = Layout.tree ∧ flags.display = Display.directoryOnly
    · simp only [recurseLoop, hname, hig, hskip, hfp, Bool.false_eq_true, if_false,
        if_true]
      rw [if_pos htree, hft]
      simp [hd2]
    · simp only [recurseLoop, hname, hig, hskip, hfp, Bool.false_eq_true, if_false,
        if_true]
      rw [if_neg htree]
      simp [hd2]

/-- After a successful per-entry resolution that passes the tree check,
the loop takes exactly one of the three recursion outcomes: child
recursion succeeded and the child is pushed with its content, child
recursion failed and the child is dropped with a severity bump, or
recursion was suppressed for an un-dereferenced symlink. -/
theorem recurseLoop_cons_step3 (fs : FS) (flags : Flags) (rc) (entry rest)
    (content : List Meta) (code : ExitCode) (log : List String) (nm : String)
    (em : Meta) (flog : List String)
    (hname : fsFileName entry.path = some nm)
    (hig : flags.ignoreGlobs nm = false)
    (hskip : displaySkip flags.display nm = false)
    (hfp : Meta.from_path fs entry.path flags.dereference = (.ok em, flog))
    (htp : treePass flags entry) :
    (∃ ct rcode rlog, rc em = (.ok (ct, rcode), rlog)
      ∧ recurseLoop fs flags rc (.ok entry :: rest) content code log
          = recurseLoop fs flags rc rest (content ++ [em.withContent ct])
              (code.setIfGreater rcode) (log ++ flog ++ rlog))
    ∨ (∃ err rlog, rc em = (.error err, rlog)
      ∧ recurseLoop fs flags rc (.ok entry :: rest) content code log
          = recurseLoop fs flags rc rest content (code.setIfGreater .minorIssue)
              (log ++ flog ++ rlog ++ [printError entry.path err]))
    ∨ (flags.dereference = false ∧ em.fileType.isSymLink = true
      ∧ recurseLoop fs flags rc (.ok entry :: rest) content code log
          = recurseLoop fs flags rc rest (content ++ [em]) code (log ++ flog)) := by
  cases hd1 : flags.dereference with
  | true =>
    cases hrc : rc em with
    | mk res rlog =>
      cases res with
      | ok r =>
        exact Or.inl ⟨r.1, r.2, rlog, by simp [hrc],
          recurseLoop_cons_rec_ok fs flags rc entry rest content code log nm em
            flog r.1 r.2 rlog hname hig hskip hfp htp (Or.inl hd1) (by simp [hrc])⟩
      | error err =>
        exact Or.inr (Or.inl ⟨err, rlog, rfl,
          recurseLoop_cons_rec_err fs flags rc entry rest content code log nm em
            flog err rlog hname hig hskip hfp htp (Or.inl hd1) hrc⟩)
  | false =>
    cases hsl : em.fileType.isSymLink with
    | false =>
      cases hrc : rc em with
      | mk res rlog =>
        cases res with
        | ok r =>
          exact Or.inl ⟨r.1, r.2, rlog, by simp [hrc],
            recurseLoop_cons_rec_ok fs flags rc entry rest content code log nm em
              flog r.1 r.2 rlog hname hig hskip hfp htp (Or.inr hsl) (by simp [hrc])⟩
        | error err =>
          exact Or.inr (Or.inl ⟨err, rlog, rfl,
            recurseLoop_cons_rec_err fs flags rc entry rest content code log nm em
              flog err rlog hname hig hskip hfp htp (Or.inr hsl) hrc⟩)
    | true =>
      exact Or.inr (Or.inr ⟨rfl, rfl,
        recurseLoop_cons_nopush fs flags rc entry rest content code log nm em
          flog hname hig hskip hfp htp hd1 hsl⟩)

/-- Every step of the loop on a non-empty entry list: either it stops
with a hard error, or it continues on the tail with the accumulator
extended in one of the possible ways. -/
theorem recurseLoop_cons_shape (fs : FS) (flags : Flags) (rc)
    (x : Except IOErr DirEntry) (rest : List (Except IOErr DirEntry))
    (content : List Meta) (code : ExitCode) (log : List String) :
    (∃ e, recurseLoop fs flags rc (x :: rest) content code log = (.error e, log))
    ∨ (∃ flog e, recurseLoop fs flags rc (x :: rest) content code log
        = (.error e, log ++ flog))
    ∨ (recurseLoop fs flags rc (x :: rest) content code log
        = recurseLoop fs flags rc rest content code log)
    ∨ (∃ flog, recurseLoop fs flags rc (x :: rest) content code log
        = recurseLoop fs flags rc rest content code (log ++ flog))
    ∨ (∃ de err flog, x = .ok de
        ∧ Meta.from_path fs de.path flags.dereference = (.error err, flog)
        ∧ recurseLoop fs flags rc (x :: rest) content code log
            = recurseLoop fs flags rc rest content (code.setIfGreater .minorIssue)
                (log ++ flog ++ [printError de.path err]))
    ∨ (∃ de em flog err rlog, x = .ok de ∧ rc em = (.error err, rlog)
        ∧ recurseLoop fs flags rc (x :: rest) content code log
            = recurseLoop fs flags rc rest content (code.setIfGreater .minorIssue)
                (log ++ flog ++ rlog ++ [printError de.path err]))
    ∨ (∃ de em flog ct rcode rlog, x = .ok de ∧ rc em = (.ok (ct, rcode), rlog)
        ∧ recurseLoop fs flags rc (x :: rest) content code log
            = recurseLoop fs flags rc rest (content ++ [em.withContent ct])
                (code.setIfGreater rcode) (log ++ flog ++ rlog))
    ∨ (∃ em flog, recurseLoop fs flags rc (x :: rest) content code log
        = recurseLoop fs flags rc rest (content ++ [em]) code (log ++ flog)) := by
  cases x with
  | error e => exact Or.inl ⟨e, rfl⟩
  | ok de =>
    cases hname : fsFileName de.path with
    | none =>
      exact Or.inl ⟨⟨"invalid file name"⟩,
        recurseLoop_cons_badname fs flags rc de rest content code log hname⟩
    | some nm =>
      cases hig : flags.ignoreGlobs nm with
      | true =>
        exact Or.inr (Or.inr (Or.inl
          (recurseLoop_cons_ignored fs flags rc de rest content code log nm hname hig)))
      | false =>
        cases hskip : displaySkip flags.display nm with
        | true =>
          exact Or.inr (Or.inr (Or.inl
            (recurseLoop_cons_skip fs flags rc de rest content code log nm hname hig hskip)))
        | false =>
          cases hfp : Meta.from_path fs de.path flags.dereference with
          | mk res flog =>
            cases res with
            | error err =>
              refine Or.inr (Or.inr (Or.inr (Or.inr (Or.inl
                ⟨de, err, flog, rfl, hfp, ?_⟩))))
              exact recurseLoop_cons_fperr fs flags rc de rest content code log
                nm err flog hname hig hskip hfp
            | ok em =>
              by_cases htree : flags.layout = Layout.tree
                  ∧ flags.display = Display.directoryOnly
              · cases hft : de.ftypeRes with
                | error e =>
                  refine Or.inr (Or.inl ⟨flog, e, ?_⟩)
                  exact recurseLoop_cons_treeerr fs flags rc de rest content code
                    log nm em flog e hname hig hskip hfp htree hft
                | ok ft =>
                  by_cases hnd : ft = RawType.dir
                  · subst hnd
                    rcases recurseLoop_cons_step3 fs flags rc de rest content code
                        log nm em flog hname hig hskip hfp (Or.inr hft) with
                      ⟨ct, rcode, rlog, hrc, heq⟩ | ⟨err, rlog, hrc, heq⟩ | ⟨h1, h2, heq⟩
                    · exact Or.inr (Or.inr (Or.inr (Or.inr (Or.inr (Or.inr (Or.inl
                        ⟨de, em, flog, ct, rcode, rlog, rfl, hrc, heq⟩))))))
                    · exact Or.inr (Or.inr (Or.inr (Or.inr (Or.inr (Or.inl
                        ⟨de, em, flog, err, rlog, rfl, hrc, heq⟩)))))
                    · exact Or.inr (Or.inr (Or.inr (Or.inr (Or.inr (Or.inr (Or.inr
                        ⟨em, flog, heq⟩))))))
                  · refine Or.inr (Or.inr (Or.inr (Or.inl ⟨flog, ?_⟩)))
                    exact recurseLoop_cons_treeskip fs flags rc de rest content
                      code log nm em flog ft hname hig hskip hfp htree hft hnd
              · rcases recurseLoop_cons_step3 fs flags rc de rest content code
                    log nm em flog hname hig hskip hfp (Or.inl htree) with
                  ⟨ct, rcode, rlog, hrc, heq⟩ | ⟨err, rlog, hrc, heq⟩ | ⟨h1, h2, heq⟩
                · exact Or.inr (Or.inr (Or.inr (Or.inr (Or.inr (Or.inr (Or.inl
                    ⟨de, em, flog, ct, rcode, rlog, rfl, hrc, heq⟩))))))
                · exact Or.inr (Or.inr (Or.inr (Or.inr (Or.inr (Or.inl
                    ⟨de, em, flog, err, rlog, rfl, hrc, heq⟩)))))
                · exact Or.inr (Or.inr (Or.inr (Or.inr (Or.inr (Or.inr (Or.inr
                    ⟨em, flog, heq⟩))))))

/-- The exit code accumulated by the loop never decreases. -/
theorem recurseLoop_code_mono (fs : FS) (flags : Flags) (rc) :
    ∀ (entries : List (Except IOErr DirEntry)) (content : List Meta)
      (code : ExitCode) (log : List String) (ct : Option (List Meta))
      (c : ExitCode) (lg : List String),
      recurseLoop fs flags rc entries content code log = (.ok (ct, c), lg) →
      code.toNat ≤ c.toNat := by
  intro entries
  induction entries with
  | nil =>
    intro content code log ct c lg h
    simp only [recurseLoop, Prod.mk.injEq, Except.ok.injEq] at h
    obtain ⟨⟨-, h2⟩, -⟩ := h
    subst h2
    exact Nat.le_refl _
  | cons x rest ih =>
    intro content code log ct c lg h
    rcases recurseLoop_cons_shape fs flags rc x rest content code log with
      ⟨e, heq⟩ | ⟨flog, e, heq⟩ | heq | ⟨flog, heq⟩ |
      ⟨de, err, flog, hx, hfp, heq⟩ | ⟨de, em, flog, err, rlog, hx, hrc, heq⟩ |
      ⟨de, em, flog, ct2, rcode, rlog, hx, hrc, heq⟩ | ⟨em, flog, heq⟩
    · rw [heq] at h; simp at h
    · rw [heq] at h; simp at h
    · rw [heq] at h; exact ih _ _ _ _ _ _ h
    · rw [heq] at h; exact ih _ _ _ _ _ _ h
    · rw [heq] at h
      exact le_trans (setIfGreater_left_le code .minorIssue) (ih _ _ _ _ _ _ h)
    · rw [heq] at h
      exact le_trans (setIfGreater_left_le code .minorIssue) (ih _ _ _ _ _ _ h)
    · rw [heq] at h
      exact le_trans (setIfGreater_left_le code rcode) (ih _ _ _ _ _ _ h)
    · rw [heq] at h; exact ih _ _ _ _ _ _ h

/-- The loop only appends to the diagnostic log. -/
theorem recurseLoop_log_prefix (fs : FS) (flags : Flags) (rc) :
    ∀ (entries : List (Except IOErr DirEntry)) (content : List Meta)
      (code : ExitCode) (log : List String) (r) (lg : List String),
      recurseLoop fs flags rc entries content code log = (r, lg) →
      ∃ s, lg = log ++ s := by
  intro entries
  induction entries with
  | nil =>
    intro content code log r lg h
    simp only [recurseLoop, Prod.mk.injEq] at h
    exact ⟨[], by simp [← h.2]⟩
  | cons x rest ih =>
    intro content code log r lg h
    rcases recurseLoop_cons_shape fs flags rc x rest content code log with
      ⟨e, heq⟩ | ⟨flog, e, heq⟩ | heq | ⟨flog, heq⟩ |
      ⟨de, err, flog, hx, hfp, heq⟩ | ⟨de, em, flog, err, rlog, hx, hrc, heq⟩ |
      ⟨de, em, flog, ct2, rcode, rlog, hx, hrc, heq⟩ | ⟨em, flog, heq⟩
    · rw [heq] at h
      obtain ⟨-, h2⟩ := Prod.mk.injEq .. ▸ h
      exact ⟨[], by simp [← h2]⟩
    · rw [heq] at h
      obtain ⟨-, h2⟩ := Prod.mk.injEq .. ▸ h
      exact ⟨flog, by simp [← h2]⟩
    · rw [heq] at h; exact ih _ _ _ _ _ h
    · rw [heq] at h
      obtain ⟨s, hs⟩ := ih _ _ _ _ _ h
      exact ⟨flog ++ s, by simp [hs]⟩
    · rw [heq] at h
      obtain ⟨s, hs⟩ := ih _ _ _ _ _ h
      exact ⟨flog ++ [printError de.path err] ++ s, by simp [hs]⟩
    · rw [heq] at h
      obtain ⟨s, hs⟩ := ih _ _ _ _ _ h
      exact ⟨flog ++ rlog ++ [printError de.path err] ++ s, by simp [hs]⟩
    · rw [heq] at h
      obtain ⟨s, hs⟩ := ih _ _ _ _ _ h
      exact ⟨flog ++ rlog ++ s, by simp [hs]⟩
    · rw [heq] at h
      obtain ⟨s, hs⟩ := ih _ _ _ _ _ h
      exact ⟨flog ++ s, by simp [hs]⟩

/-- If every child recursion outcome stays at or below MinorIssue, so
does the exit code the loop returns. -/
theorem recurseLoop_code_le (fs : FS) (flags : Flags) (rc)
    (hrc : ∀ m ct c lg, rc m = (.ok (ct, c), lg) → ExitCode.toNat c ≤ 1) :
    ∀ (entries : List (Except IOErr DirEntry)) (content : List Meta)
      (code : ExitCode) (log : List String) (ct : Option (List Meta))
      (c : ExitCode) (lg : List String), code.toNat ≤ 1 →
      recurseLoop fs flags rc entries content code log = (.ok (ct, c), lg) →
      c.toNat ≤ 1 := by
  intro entries
  induction entries with
  | nil =>
    intro content code log ct c lg hcode h
    simp only [recurseLoop, Prod.mk.injEq, Except.ok.injEq] at h
    obtain ⟨⟨-, h2⟩, -⟩ := h
    subst h2
    exact hcode
  | cons x rest ih =>
    intro content code log ct c lg hcode h
    rcases recurseLoop_cons_shape fs flags rc x rest content code log with
      ⟨e, heq⟩ | ⟨flog, e, heq⟩ | heq | ⟨flog, heq⟩ |
      ⟨de, err, flog, hx, hfp, heq⟩ | ⟨de, em, flog, err, rlog, hx, hrc2, heq⟩ |
      ⟨de, em, flog, ct2, rcode, rlog, hx, hrc2, heq⟩ | ⟨em, flog, heq⟩
    · rw [heq] at h; simp at h
    · rw [heq] at h; simp at h
    · rw [heq] at h; exact ih _ _ _ _ _ _ hcode h
    · rw [heq] at h; exact ih _ _ _ _ _ _ hcode h
    · rw [heq] at h
      exact ih _ _ _ _ _ _ (setIfGreater_le code .minorIssue .minorIssue hcode (by decide)) h
    · rw [heq] at h
      exact ih _ _ _ _ _ _ (setIfGreater_le code .minorIssue .minorIssue hcode (by decide)) h
    · rw [heq] at h
      refine ih _ _ _ _ _ _ ?_ h
      have := hrc em ct2 rcode rlog hrc2
      cases code <;> cases rcode <;> simp_all [ExitCode.setIfGreater, ExitCode.toNat]
    · rw [heq] at h; exact ih _ _ _ _ _ _ hcode h

/-- If nothing was written to the error stream, the loop hands back its
incoming exit code unchanged. -/
theorem recurseLoop_clean (fs : FS) (flags : Flags) (rc)
    (hrc : ∀ m ct c lg, rc m = (.ok (ct, c), lg) → lg = [] → c = .OK) :
    ∀ (entries : List (Except IOErr DirEntry)) (content : List Meta)
      (code : ExitCode) (log : List String) (ct : Option (List Meta))
      (c : ExitCode) (lg : List String),
      recurseLoop fs flags rc entries content code log = (.ok (ct, c), lg) →
      lg = [] → c = code := by
  intro entries
  induction entries with
  | nil =>
    intro content code log ct c lg h hlg
    simp only [recurseLoop, Prod.mk.injEq, Except.ok.injEq] at h
    obtain ⟨⟨-, h2⟩, -⟩ := h
    exact h2.symm
  | cons x rest ih =>
    intro content code log ct c lg h hlg
    subst hlg
    rcases recurseLoop_cons_shape fs flags rc x rest content code log with
      ⟨e, heq⟩ | ⟨flog, e, heq⟩ | heq | ⟨flog, heq⟩ |
      ⟨de, err, flog, hx, hfp, heq⟩ | ⟨de, em, flog, err, rlog, hx, hrc2, heq⟩ |
      ⟨de, em, flog, ct2, rcode, rlog, hx, hrc2, heq⟩ | ⟨em, flog, heq⟩
    · rw [heq] at h; simp at h
    · rw [heq] at h; simp at h
    · rw [heq] at h; exact ih _ _ _ _ _ _ h rfl
    · rw [heq] at h; exact ih _ _ _ _ _ _ h rfl
    · rw [heq] at h
      obtain ⟨s, hs⟩ := recurseLoop_log_prefix fs flags rc _ _ _ _ _ _ h
      simp at hs
    · rw [heq] at h
      obtain ⟨s, hs⟩ := recurseLoop_log_prefix fs flags rc _ _ _ _ _ _ h
      simp at hs
    · rw [heq] at h
      obtain ⟨s, hs⟩ := recurseLoop_log_prefix fs flags rc _ _ _ _ _ _ h
      have h0 : log ++ (flog ++ (rlog ++ s)) = [] := by
        simpa only [List.append_assoc] using hs.symm
      have h1 := List.append_eq_nil.mp h0
      have h2 := List.append_eq_nil.mp h1.2
      have h3 := List.append_eq_nil.mp h2.2
      rw [h3.1] at hrc2
      have hOK := hrc em ct2 rcode [] hrc2 rfl
      subst hOK
      rw [setIfGreater_OK_right] at h
      exact ih _ _ _ _ _ _ h rfl
    · rw [heq] at h; exact ih _ _ _ _ _ _ h rfl

/-- A surviving entry whose resolution fails forces the loop's returned
exit code to at least MinorIssue. -/
theorem recurseLoop_bump (fs : FS) (flags : Flags) (rc) :
    ∀ (entries : List (Except IOErr DirEntry)) (content : List Meta)
      (code : ExitCode) (log : List String) (ct : Option (List Meta))
      (c : ExitCode) (lg : List String) (de : DirEntry) (nm : String)
      (err : IOErr) (flog : List String),
      (.ok de) ∈ entries →
      fsFileName de.path = some nm →
      flags.ignoreGlobs nm = false →
      displaySkip flags.display nm = false →
      Meta.from_path fs de.path flags.dereference = (.error err, flog) →
      recurseLoop fs flags rc entries content code log = (.ok (ct, c), lg) →
      1 ≤ c.toNat := by
  intro entries
  induction entries with
  | nil =>
    intro content code log ct c lg de nm err flog hmem
    simp at hmem
  | cons x rest ih =>
    intro content code log ct c lg de nm err flog hmem hname hig hskip hfp h
    rcases List.mem_cons.mp hmem with hx | hmem2
    · subst hx
      rw [recurseLoop_cons_fperr fs flags rc de rest content code log nm err flog
        hname hig hskip hfp] at h
      refine le_trans ?_ (recurseLoop_code_mono fs flags rc _ _ _ _ _ _ _ h)
      exact le_trans (by decide) (setIfGreater_right_le code .minorIssue)
    · rcases recurseLoop_cons_shape fs flags rc x rest content code log with
        ⟨e, heq⟩ | ⟨flog2, e, heq⟩ | heq | ⟨flog2, heq⟩ |
        ⟨de2, err2, flog2, hx2, hfp2, heq⟩ |
        ⟨de2, em, flog2, err2, rlog, hx2, hrc2, heq⟩ |
        ⟨de2, em, flog2, ct2, rcode, rlog, hx2, hrc2, heq⟩ | ⟨em, flog2, heq⟩
      · rw [heq] at h; simp at h
      · rw [heq] at h; simp at h
      · rw [heq] at h; exact ih _ _ _ _ _ _ _ _ _ _ hmem2 hname hig hskip hfp h
      · rw [heq] at h; exact ih _ _ _ _ _ _ _ _ _ _ hmem2 hname hig hskip hfp h
      · rw [heq] at h; exact ih _ _ _ _ _ _ _ _ _ _ hmem2 hname hig hskip hfp h
      · rw [heq] at h; exact ih _ _ _ _ _ _ _ _ _ _ hmem2 hname hig hskip hfp h
      · rw [heq] at h; exact ih _ _ _ _ _ _ _ _ _ _ hmem2 hname hig hskip hfp h
      · rw [heq] at h; exact ih _ _ _ _ _ _ _ _ _ _ hmem2 hname hig hskip hfp h

/-- The exit code recurse_into hands back never exceeds MinorIssue. -/
theorem recurse_into_code_le (fs : FS) (flags : Flags) :
    ∀ (depth : Nat) (m : Meta) (ct : Option (List Meta)) (c : ExitCode)
      (lg : List String),
      Meta.recurse_into fs m depth flags = (.ok (ct, c), lg) → c.toNat ≤ 1 := by
  intro depth
  induction depth with
  | zero =>
    intro m ct c lg h
    simp only [Meta.recurse_into, Prod.mk.injEq, Except.ok.injEq] at h
    obtain ⟨⟨-, h2⟩, -⟩ := h
    subst h2
    decide
  | succ d ih =>
    intro m ct c lg h
    simp only [Meta.recurse_into] at h
    split at h
    · simp only [Prod.mk.injEq, Except.ok.injEq] at h
      obtain ⟨⟨-, h2⟩, -⟩ := h
      subst h2
      decide
    · split at h
      · simp only [Prod.mk.injEq, Except.ok.injEq] at h
        obtain ⟨⟨-, h2⟩, -⟩ := h
        subst h2
        decide
      · split at h
        · simp only [Prod.mk.injEq, Except.ok.injEq] at h
          obtain ⟨⟨-, h2⟩, -⟩ := h
          subst h2
          decide
        · split at h
          · simp at h
          · exact recurseLoop_code_le fs flags _
              (fun m2 ct2 c2 lg2 hh => ih m2 ct2 c2 lg2 hh)
              _ _ _ _ _ _ _ (by decide) h

/-- A silent expansion reports OK: with nothing on the error stream the
exit code is OK. -/
theorem recurse_into_clean (fs : FS) (flags : Flags) :
    ∀ (depth : Nat) (m : Meta) (ct : Option (List Meta)) (c : ExitCode)
      (lg : List String),
      Meta.recurse_into fs m depth flags = (.ok (ct, c), lg) → lg = [] →
      c = .OK := by
  intro depth
  induction depth with
  | zero =>
    intro m ct c lg h hlg
    simp only [Meta.recurse_into, Prod.mk.injEq, Except.ok.injEq] at h
    exact h.1.2.symm
  | succ d ih =>
    intro m ct c lg h hlg
    subst hlg
    simp only [Meta.recurse_into] at h
    split at h
    · simp only [Prod.mk.injEq, Except.ok.injEq] at h
      exact h.1.2.symm
    · split at h
      · simp only [Prod.mk.injEq, Except.ok.injEq] at h
        exact h.1.2.symm
      · split at h
        · simp at h
        · split at h
          · simp at h
          · exact recurseLoop_clean fs flags _
              (fun m2 ct2 c2 lg2 hh h0 => ih m2 ct2 c2 lg2 hh h0)
              _ _ _ _ _ _ _ h rfl

/-- A surviving child whose resolution fails forces recurse_into to
report at least MinorIssue whenever it returns a child list at all. -/
theorem recurse_into_bump (fs : FS) (flags : Flags) (d : Nat) (m : Meta)
    (entries : List (Except IOErr DirEntry)) (de : DirEntry) (nm : String)
    (err : IOErr) (flog : List String) (l : List Meta) (c : ExitCode)
    (lg : List String)
    (hrd : fs.readDir m.path = .ok entries)
    (hmem : (.ok de) ∈ entries)
    (hname : fsFileName de.path = some nm)
    (hig : flags.ignoreGlobs nm = false)
    (hskip : displaySkip flags.display nm = false)
    (hfp : Meta.from_path fs de.path flags.dereference = (.error err, flog))
    (hres : Meta.recurse_into fs m (d + 1) flags = (.ok (some l, c), lg)) :
    1 ≤ c.toNat := by
  simp only [Meta.recurse_into, hrd] at hres
  split at hres
  · simp at hres
  · split at hres
    · simp at hres
    · split at hres
      · simp at hres
      · exact recurseLoop_bump fs flags _ _ _ _ _ _ _ _ de nm err flog
          hmem hname hig hskip hfp hres

/-- The resolved root record of fsC3. -/
def metaC3 : Meta :=
  match (Meta.from_path fsC3 [] false).1 with
  | .ok m => m
  | .error _ => metaFallback

/-- Root directory with one child x whose stat fails. -/
def fsC7 : FS where
  symlinkMetadata := fun p =>
    if p = ([] : FsPath) then .ok ⟨.dir, 100, 0, 2, 0, 0, 0, 493⟩
    else .error ⟨"No such file or directory (os error 2)"⟩
  metadata := fun _ => .error ⟨"No such file or directory (os error 2)"⟩
  readDir := fun p =>
    if p = ([] : FsPath) then .ok [.ok ⟨["x"], .ok .file⟩]
    else .error ⟨"No such file or directory (os error 2)"⟩
  readLink := fun _ => none
  acl := fun _ => some ""

/-- The resolved root record of fsC7. -/
def metaC7 : Meta :=
  match (Meta.from_path fsC7 [] false).1 with
  | .ok m => m
  | .error _ => metaFallback

/-- The resolved record of d in fsC2, without dereference. -/
def metaC2nd : Meta :=
  match (Meta.from_path fsC2 ["d"] false).1 with
  | .ok m => m
  | .error _ => metaFallback

/-- C7: the severity recurse_into aggregates is the monotone maximum of
the traversal's outcomes: the result is only ever OK or MinorIssue, a
failed directory open yields MinorIssue, a surviving child whose
resolution fails forces at least MinorIssue, and a traversal that
reported nothing returns OK. -/
theorem recurse_into_severity :
    (∀ (fs : FS) (flags : Flags) (depth : Nat) (m : Meta)
      (ct : Option (List Meta)) (c : ExitCode) (lg : List String),
      Meta.recurse_into fs m depth flags = (.ok (ct, c), lg) →
      c = .OK ∨ c = .minorIssue)
    ∧ (∀ (fs : FS) (flags : Flags) (d : Nat) (m : Meta) (err : IOErr),
      ¬ (flags.display = Display.directoryOnly ∧ flags.layout ≠ Layout.tree) →
      eligibleType m.fileType flags.layout = true →
      fs.readDir m.path = .error err →
      Meta.recurse_into fs m (d + 1) flags
        = (.ok (none, .minorIssue), [printError m.path err]))
    ∧ (∀ (fs : FS) (flags : Flags) (d : Nat) (m : Meta)
      (entries : List (Except IOErr DirEntry)) (de : DirEntry) (nm : String)
      (err : IOErr) (flog : List String) (l : List Meta) (c : ExitCode)
      (lg : List String),
      fs.readDir m.path = .ok entries → (.ok de) ∈ entries →
      fsFileName de.path = some nm → flags.ignoreGlobs nm = false →
      displaySkip flags.display nm = false →
      Meta.from_path fs de.path flags.dereference = (.error err, flog) →
      Meta.recurse_into fs m (d + 1) flags = (.ok (some l, c), lg) →
      1 ≤ c.toNat)
    ∧ (∀ (fs : FS) (flags : Flags) (depth : Nat) (m : Meta)
      (ct : Option (List Meta)) (c : ExitCode) (lg : List String),
      Meta.recurse_into fs m depth flags = (.ok (ct, c), lg) → lg = [] →
      c = .OK) := by
  refine ⟨?_, ?_, ?_, ?_⟩
  · intro fs flags depth m ct c lg h
    have hle := recurse_into_code_le fs flags depth m ct c lg h
    cases c
    · exact Or.inl rfl
    · exact Or.inr rfl
    · simp [ExitCode.toNat] at hle
  · intro fs flags d m err hg he hrd
    simp only [Meta.recurse_into, hrd]
    rw [if_neg hg]
    simp [he]
  · intro fs flags d m entries de nm err flog l c lg h1 h2 h3 h4 h5 h6 h7
    exact recurse_into_bump fs flags d m entries de nm err flog l c lg
      h1 h2 h3 h4 h5 h6 h7
  · intro fs flags depth m ct c lg h hlg
    exact recurse_into_clean fs flags depth m ct c lg h hlg

/-- C7 witness at concrete filesystems: a failing child gives exactly
MinorIssue, a failing directory open gives MinorIssue with its
diagnostic, a failing child resolution bumps the severity, and a silent
traversal returns OK. -/
theorem recurse_into_severity_witness :
    (ExitCode.minorIssue = ExitCode.OK ∨ ExitCode.minorIssue = ExitCode.minorIssue)
    ∧ Meta.recurse_into fsC3 metaC3 1 (lsdFlags .visibleOnly .grid false)
        = (.ok (none, .minorIssue),
            [printError [] ⟨"Permission denied (os error 13)"⟩])
    ∧ 1 ≤ ExitCode.minorIssue.toNat
    ∧ ExitCode.OK = ExitCode.OK := by
  refine ⟨?_, ?_, ?_, ?_⟩
  · exact recurse_into_severity.1 fsC1 (lsdFlags .visibleOnly .grid false) 2
      metaC1 (some []) .minorIssue ["c: Input or output error (os error 5)."] rfl
  · exact recurse_into_severity.2.1 fsC3 (lsdFlags .visibleOnly .grid false) 0
      metaC3 ⟨"Permission denied (os error 13)"⟩ (by decide) (by decide) rfl
  · exact recurse_into_severity.2.2.1 fsC7 (lsdFlags .visibleOnly .grid false) 0
      metaC7 [.ok ⟨["x"], .ok .file⟩] ⟨["x"], .ok .file⟩ "x"
      ⟨"No such file or directory (os error 2)"⟩ [] []
      .minorIssue ["x: No such file or directory (os error 2)."]
      rfl (by decide) (by decide) rfl (by decide) rfl rfl
  · exact recurse_into_severity.2.2.2 fsC2 (lsdFlags .visibleOnly .grid false) 1
      metaC2nd (some []) .OK [] rfl rfl

/-- The resolved record of the subdirectory c of fsC1 under a constant
failing child recursion. -/
def rcBoom : Meta → Except IOErr (Option (List Meta) × ExitCode) × List String :=
  fun _ => (.error ⟨"boom"⟩, [])

/-- C1 counterexample: on fsC1 the child c resolves successfully, its
recursive expansion fails, the failure is caught and reported with
severity MinorIssue, yet the returned children list is empty: the child
is dropped, not included childless. -/
theorem recurse_into_child_failure_counterexample :
    Meta.recurse_into fsC1 metaC1 2 (lsdFlags .visibleOnly .grid false)
      = (.ok (some [], .minorIssue), ["c: Input or output error (os error 5)."])
    ∧ (Meta.from_path fsC1 ["c"] false).1 = .ok metaC1c := ⟨rfl, rfl⟩

/-- C1 amended: when a successfully resolved child's recursion fails,
the loop catches it, reports it, bumps the aggregate severity to at
least MinorIssue, and continues with that child excluded from the
children list. -/
theorem recurseLoop_child_failure (fs : FS) (flags : Flags) (rc)
    (entry : DirEntry) (rest : List (Except IOErr DirEntry))
    (content : List Meta) (code : ExitCode) (log : List String) (nm : String)
    (em : Meta) (flog : List String) (err : IOErr) (rlog : List String)
    (ct : Option (List Meta)) (c : ExitCode) (lg : List String)
    (hname : fsFileName entry.path = some nm)
    (hig : flags.ignoreGlobs nm = false)
    (hskip : displaySkip flags.display nm = false)
    (hfp : Meta.from_path fs entry.path flags.dereference = (.ok em, flog))
    (htp : treePass flags entry)
    (hd : flags.dereference = true ∨ em.fileType.isSymLink = false)
    (hrc : rc em = (.error err, rlog))
    (hres : recurseLoop fs flags rc (.ok entry :: rest) content code log
        = (.ok (ct, c), lg)) :
    recurseLoop fs flags rc (.ok entry :: rest) content code log
      = recurseLoop fs flags rc rest content (code.setIfGreater .minorIssue)
          (log ++ flog ++ rlog ++ [printError entry.path err])
    ∧ 1 ≤ c.toNat := by
  have heq := recurseLoop_cons_rec_err fs flags rc entry rest content code log
    nm em flog err rlog hname hig hskip hfp htp hd hrc
  refine ⟨heq, ?_⟩
  rw [heq] at hres
  refine le_trans ?_ (recurseLoop_code_mono fs flags rc _ _ _ _ _ _ _ hres)
  exact le_trans (by decide) (setIfGreater_right_le code .minorIssue)

/-- C1 witness: the concrete failing child of fsC1 is skipped and the
severity is MinorIssue. -/
theorem recurseLoop_child_failure_witness :
    recurseLoop fsC1 (lsdFlags .visibleOnly .grid false) rcBoom
        [.ok ⟨["c"], .ok .dir⟩] [] .OK []
      = recurseLoop fsC1 (lsdFlags .visibleOnly .grid false) rcBoom [] []
          (ExitCode.OK.setIfGreater .minorIssue)
          ([] ++ [] ++ [] ++ [printError ["c"] ⟨"boom"⟩])
    ∧ 1 ≤ ExitCode.minorIssue.toNat :=
  recurseLoop_child_failure fsC1 (lsdFlags .visibleOnly .grid false) rcBoom
    ⟨["c"], .ok .dir⟩ [] [] .OK [] "c" metaC1c [] ⟨"boom"⟩ [] (some [])
    .minorIssue ["c: boom."] rfl rfl (by decide) rfl (Or.inl (by decide))
    (Or.inr (by decide)) rfl rfl

/-- The record of the parent path of d in fsC2 under dereference. -/
def metaC2dd : Meta :=
  match (Meta.from_path fsC2 ["d", ".."] true).1 with
  | .ok m => m
  | .error _ => metaFallback

/-- Projection of the file type of the second synthesized pseudo-entry
on fsC2 with the dereference flag set. -/
def dotdotFileType : Option FileType :=
  match (Meta.recurse_into fsC2 metaC2 1 (lsdFlags .all .grid true)).1 with
  | .ok (some (_ :: pm :: _), _) => some pm.fileType
  | _ => none

/-- C2 counterexample: with the global dereference flag set, the dot-dot
pseudo-entry of fsC2 comes back dereferenced as a directory, while
non-dereferencing resolution of the same parent path yields a symlink
record; the two disagree. -/
theorem recurse_into_dotdot_counterexample :
    dotdotFileType = some .directory
    ∧ (match (Meta.from_path fsC2 ["d", ".."] false).1 with
        | .ok pm => some pm.fileType
        | .error _ => none) = some (.symLink true)
    ∧ FileType.directory ≠ FileType.symLink true := ⟨rfl, rfl, by decide⟩

/-- C2 amended: whenever the dot and dot-dot synthesis runs, the dot-dot
pseudo-record is resolved from the parent path with the global
dereference flag, and prepended after the dot clone of the current
record. -/
theorem recurse_into_dotdot_deref (fs : FS) (flags : Flags) (d : Nat)
    (m : Meta) (entries : List (Except IOErr DirEntry)) (pm : Meta)
    (plog : List String)
    (hg : ¬ (flags.display = Display.directoryOnly ∧ flags.layout ≠ Layout.tree))
    (he : eligibleType m.fileType flags.layout = true)
    (hrd : fs.readDir m.path = .ok entries)
    (hps : (flags.display = Display.all ∨ flags.display = Display.systemProtected)
        ∧ flags.layout ≠ Layout.tree)
    (hfp : Meta.from_path fs (m.path ++ [".."]) flags.dereference = (.ok pm, plog)) :
    Meta.recurse_into fs m (d + 1) flags
      = recurseLoop fs flags (fun m2 => Meta.recurse_into fs m2 d flags)
          entries [m.setName ".", pm.setName ".."] .OK plog := by
  simp only [Meta.recurse_into, hrd]
  rw [if_neg hg]
  simp only [he, Bool.true_eq_false, if_false]
  rw [if_pos hps]
  simp [hfp]

/-- C2 witness: on fsC2 the synthesis produces exactly the dot clone and
the dereferenced dot-dot record. -/
theorem recurse_into_dotdot_deref_witness :
    Meta.recurse_into fsC2 metaC2 1 (lsdFlags .all .grid true)
      = recurseLoop fsC2 (lsdFlags .all .grid true)
          (fun m2 => Meta.recurse_into fsC2 m2 0 (lsdFlags .all .grid true))
          [] [metaC2.setName ".", metaC2dd.setName ".."] .OK [] :=
  recurse_into_dotdot_deref fsC2 (lsdFlags .all .grid true) 0 metaC2 []
    metaC2dd [] (by decide) (by decide) rfl (by decide) rfl

/-- Directory d whose parent path cannot be stat-ed at all. -/
def fsC4b : FS where
  symlinkMetadata := fun p =>
    if p = ["d"] then .ok ⟨.dir, 100, 0, 2, 0, 0, 0, 493⟩
    else .error ⟨"No such file or directory (os error 2)"⟩
  metadata := fun p =>
    if p = ["d"] then .ok ⟨.dir, 100, 0, 2, 0, 0, 0, 493⟩
    else .error ⟨"No such file or directory (os error 2)"⟩
  readDir := fun p =>
    if p = ["d"] then .ok []
    else .error ⟨"No such file or directory (os error 2)"⟩
  readLink := fun _ => none
  acl := fun _ => some ""

/-- The resolved record of d in fsC4b. -/
def metaC4b : Meta :=
  match (Meta.from_path fsC4b ["d"] true).1 with
  | .ok m => m
  | .error _ => metaFallback

/-- C4 counterexample: a failing directory-stream entry makes
recurse_into itself return a hard error, unwinding past the walker. -/
theorem recurse_into_hard_error_counterexample :
    Meta.recurse_into fsC4 metaC4 1 (lsdFlags .visibleOnly .grid false)
      = (.error ⟨"Input or output error (os error 5)"⟩, []) := rfl

/-- C4 amended: after the eligibility checks only per-child resolution
failures and per-child recursion failures are absorbed into severity
contributions; a directory-entry iteration failure, an invalid file
name, a file-type query failure in tree directory-only mode, and a
dot-dot resolution failure all unwind out of the walker as hard
errors. -/
theorem recurse_into_failure_propagation :
    (∀ (fs : FS) (flags : Flags) (rc) (e : IOErr)
      (rest : List (Except IOErr DirEntry)) (content : List Meta)
      (code : ExitCode) (log : List String),
      recurseLoop fs flags rc (.error e :: rest) content code log
        = (.error e, log))
    ∧ (∀ (fs : FS) (flags : Flags) (rc) (entry : DirEntry) (rest)
      (content : List Meta) (code : ExitCode) (log : List String),
      fsFileName entry.path = none →
      recurseLoop fs flags rc (.ok entry :: rest) content code log
        = (.error ⟨"invalid file name"⟩, log))
    ∧ (∀ (fs : FS) (flags : Flags) (rc) (entry : DirEntry) (rest)
      (content : List Meta) (code : ExitCode) (log : List String) (nm : String)
      (em : Meta) (flog : List String) (e : IOErr),
      fsFileName entry.path = some nm → flags.ignoreGlobs nm = false →
      displaySkip flags.display nm = false →
      Meta.from_path fs entry.path flags.dereference = (.ok em, flog) →
      flags.layout = Layout.tree ∧ flags.display = Display.directoryOnly →
      entry.ftypeRes = .error e →
      recurseLoop fs flags rc (.ok entry :: rest) content code log
        = (.error e, log ++ flog))
    ∧ (∀ (fs : FS) (flags : Flags) (d : Nat) (m : Meta)
      (entries : List (Except IOErr DirEntry)) (e : IOErr) (plog : List String),
      ¬ (flags.display = Display.directoryOnly ∧ flags.layout ≠ Layout.tree) →
      eligibleType m.fileType flags.layout = true →
      fs.readDir m.path = .ok entries →
      (flags.display = Display.all ∨ flags.display = Display.systemProtected)
        ∧ flags.layout ≠ Layout.tree →
      Meta.from_path fs (m.path ++ [".."]) flags.dereference = (.error e, plog) →
      Meta.recurse_into fs m (d + 1) flags = (.error e, plog))
    ∧ (∀ (fs : FS) (flags : Flags) (rc) (entry : DirEntry) (rest)
      (content : List Meta) (code : ExitCode) (log : List String) (nm : String)
      (err : IOErr) (flog : List String),
      fsFileName entry.path = some nm → flags.ignoreGlobs nm = false →
      displaySkip flags.display nm = false →
      Meta.from_path fs entry.path flags.dereference = (.error err, flog) →
      recurseLoop fs flags rc (.ok entry :: rest) content code log
        = recurseLoop fs flags rc rest content (code.setIfGreater .minorIssue)
            (log ++ flog ++ [printError entry.path err]))
    ∧ (∀ (fs : FS) (flags : Flags) (rc) (entry : DirEntry) (rest)
      (content : List Meta) (code : ExitCode) (log : List String) (nm : String)
      (em : Meta) (flog : List String) (err : IOErr) (rlog : List String),
      fsFileName entry.path = some nm → flags.ignoreGlobs nm = false →
      displaySkip flags.display nm = false →
      Meta.from_path fs entry.path flags.dereference = (.ok em, flog) →
      treePass flags entry →
      flags.dereference = true ∨ em.fileType.isSymLink = false →
      rc em = (.error err, rlog) →
      recurseLoop fs flags rc (.ok entry :: rest) content code log
        = recurseLoop fs flags rc rest content (code.setIfGreater .minorIssue)
            (log ++ flog ++ rlog ++ [printError entry.path err])) := by
  refine ⟨?_, ?_, ?_, ?_, ?_, ?_⟩
  · intro fs flags rc e rest content code log
    rfl
  · intro fs flags rc entry rest content code log hname
    exact recurseLoop_cons_badname fs flags rc entry rest content code log hname
  · intro fs flags rc entry rest content code log nm em flog e hname hig hskip
      hfp htree hft
    exact recurseLoop_cons_treeerr fs flags rc entry rest content code log nm
      em flog e hname hig hskip hfp htree hft
  · intro fs flags d m entries e plog hg he hrd hps hfp
    simp only [Meta.recurse_into, hrd]
    rw [if_neg hg]
    simp only [he, Bool.true_eq_false, if_false]
    rw [if_pos hps]
    simp [hfp]
  · intro fs flags rc entry rest content code log nm err flog hname hig hskip hfp
    exact recurseLoop_cons_fperr fs flags rc entry rest content code log nm err
      flog hname hig hskip hfp
  · intro fs flags rc entry rest content code log nm em flog err rlog hname hig
      hskip hfp htp hd hrc
    exact recurseLoop_cons_rec_err fs flags rc entry rest content code log nm em
      flog err rlog hname hig hskip hfp htp hd hrc

/-- C4 witness: each propagation and absorption case exercised at a
concrete input. -/
theorem recurse_into_failure_propagation_witness :
    recurseLoop fsC4 (lsdFlags .visibleOnly .grid false) rcBoom
        [.error ⟨"io"⟩] [] .OK [] = (.error ⟨"io"⟩, [])
    ∧ recurseLoop fsC4 (lsdFlags .visibleOnly .grid false) rcBoom
        [.ok ⟨["d", ".."], .ok .dir⟩] [] .OK []
        = (.error ⟨"invalid file name"⟩, [])
    ∧ recurseLoop fsC1 (lsdFlags .directoryOnly .tree false) rcBoom
        [.ok ⟨["c"], .error ⟨"ft"⟩⟩] [] .OK [] = (.error ⟨"ft"⟩, [] ++ [])
    ∧ Meta.recurse_into fsC4b metaC4b 1 (lsdFlags .all .grid true)
        = (.error ⟨"No such file or directory (os error 2)"⟩, [])
    ∧ recurseLoop fsC7 (lsdFlags .visibleOnly .grid false) rcBoom
        [.ok ⟨["x"], .ok .file⟩] [] .OK []
        = recurseLoop fsC7 (lsdFlags .visibleOnly .grid false) rcBoom [] []
            (ExitCode.OK.setIfGreater .minorIssue)
            ([] ++ [] ++ [printError ["x"] ⟨"No such file or directory (os error 2)"⟩])
    ∧ recurseLoop fsC1 (lsdFlags .visibleOnly .grid false) rcBoom
        [.ok ⟨["c"], .ok .dir⟩] [] .OK []
        = recurseLoop fsC1 (lsdFlags .visibleOnly .grid false) rcBoom [] []
            (ExitCode.OK.setIfGreater .minorIssue)
            ([] ++ [] ++ [] ++ [printError ["c"] ⟨"boom"⟩]) := by
  refine ⟨?_, ?_, ?_, ?_, ?_, ?_⟩
  · exact recurse_into_failure_propagation.1 fsC4
      (lsdFlags .visibleOnly .grid false) rcBoom ⟨"io"⟩ [] [] .OK []
  · exact recurse_into_failure_propagation.2.1 fsC4
      (lsdFlags .visibleOnly .grid false) rcBoom ⟨["d", ".."], .ok .dir⟩ [] []
      .OK [] rfl
  · exact recurse_into_failure_propagation.2.2.1 fsC1
      (lsdFlags .directoryOnly .tree false) rcBoom ⟨["c"], .error ⟨"ft"⟩⟩ [] []
      .OK [] "c" metaC1c [] ⟨"ft"⟩ rfl rfl (by decide) rfl (by decide) rfl
  · exact recurse_into_failure_propagation.2.2.2.1 fsC4b
      (lsdFlags .all .grid true) 0 metaC4b [] ⟨"No such file or directory (os error 2)"⟩
      [] (by decide) (by decide) rfl (by decide) rfl
  · exact recurse_into_failure_propagation.2.2.2.2.1 fsC7
      (lsdFlags .visibleOnly .grid false) rcBoom ⟨["x"], .ok .file⟩ [] [] .OK []
      "x" ⟨"No such file or directory (os error 2)"⟩ [] rfl rfl (by decide) rfl
  · exact recurse_into_failure_propagation.2.2.2.2.2 fsC1
      (lsdFlags .visibleOnly .grid false) rcBoom ⟨["c"], .ok .dir⟩ [] [] .OK []
      "c" metaC1c [] ⟨"boom"⟩ [] rfl rfl (by decide) rfl (Or.inl (by decide))
      (Or.inr (by decide)) rfl

/-- C3 counterexample: a directory whose stream cannot be opened still
contributes its own stat length (4096 here), not zero, to the fallback
total. -/
theorem calculate_total_file_size_counterexample :
    Meta.calculate_total_file_size fsC3 2 []
      = (4096, [printError [] ⟨"Permission denied (os error 13)"⟩])
    ∧ (4096 : Nat) ≠ 0 := ⟨rfl, by decide⟩

/-- C3 amended: every I/O error of the fallback walk is reported and
only the unreadable portion contributes zero: a failing initial stat
zeroes the whole subtree, a failing directory open keeps the already
stat-ed directory length and zeroes its children, and a failing entry
read skips just that entry while the sum continues. -/
theorem calculate_total_file_size_errors :
    (∀ (fs : FS) (path : FsPath) (fuel : Nat) (e : IOErr),
      fs.symlinkMetadata path = .error e →
      Meta.calculate_total_file_size fs (fuel + 1) path
        = (0, [printError path e]))
    ∧ (∀ (fs : FS) (path : FsPath) (fuel : Nat) (md : Metadata) (e : IOErr),
      fs.symlinkMetadata path = .ok md → md.ftype = RawType.dir →
      fs.readDir path = .error e →
      Meta.calculate_total_file_size fs (fuel + 1) path
        = (md.len, [printError path e]))
    ∧ (∀ (szf : FsPath → Nat × List String) (parent : FsPath) (e : IOErr)
      (rest : List (Except IOErr DirEntry)),
      walkSize szf parent (.error e :: rest)
        = ((walkSize szf parent rest).1,
            printError parent e :: (walkSize szf parent rest).2)) := by
  refine ⟨?_, ?_, ?_⟩
  · intro fs path fuel e h
    simp [Meta.calculate_total_file_size, h]
  · intro fs path fuel md e hstat hft hrd
    simp [Meta.calculate_total_file_size, hstat, hft, hrd]
  · intro szf parent e rest
    rfl

/-- C3 witness: the three error modes at concrete inputs. -/
theorem calculate_total_file_size_errors_witness :
    Meta.calculate_total_file_size fsC4 1 ["nope"]
      = (0, [printError ["nope"] ⟨"No such file or directory (os error 2)"⟩])
    ∧ Meta.calculate_total_file_size fsC3 1 []
      = (4096, [printError [] ⟨"Permission denied (os error 13)"⟩])
    ∧ walkSize (fun _ => (7, [])) [] [.error ⟨"io"⟩]
      = ((walkSize (fun _ => (7, [])) [] []).1,
          printError [] ⟨"io"⟩ :: (walkSize (fun _ => (7, [])) [] []).2) := by
  refine ⟨?_, ?_, ?_⟩
  · exact calculate_total_file_size_errors.1 fsC4 ["nope"] 0
      ⟨"No such file or directory (os error 2)"⟩ rfl
  · exact calculate_total_file_size_errors.2.1 fsC3 [] 0
      ⟨.dir, 4096, 0, 2, 0, 0, 0, 493⟩ ⟨"Permission denied (os error 13)"⟩
      rfl rfl rfl
  · exact calculate_total_file_size_errors.2.2 (fun _ => (7, [])) [] ⟨"io"⟩ []

/-! ## Fuel-checked execution, witnessing termination on the depth
argument. -/

/-- Fuel-checked variant of the per-entry loop: the child call may time
out, in which case no value is produced. -/
def recurseLoopF (fs : FS) (flags : Flags)
    (recurseChild : Meta →
      Option (Except IOErr (Option (List Meta) × ExitCode) × List String)) :
    List (Except IOErr DirEntry) → List Meta → ExitCode → List String →
    Option (Except IOErr (Option (List Meta) × ExitCode) × List String)
  | [], content, exit_code, log => some (.ok (some content, exit_code), log)
  | .error e :: _, _, _, log => some (.error e, log)
  | .ok entry :: rest, content, exit_code, log =>
    match fsFileName entry.path with
    | none => some (.error ⟨"invalid file name"⟩, log)
    | some nm =>
      if flags.ignoreGlobs nm then
        recurseLoopF fs flags recurseChild rest content exit_code log
      else if displaySkip flags.display nm then
        recurseLoopF fs flags recurseChild rest content exit_code log
      else
        match Meta.from_path fs entry.path flags.dereference with
        | (.error err, flog) =>
          recurseLoopF fs flags recurseChild rest content
            (exit_code.setIfGreater .minorIssue)
            (log ++ flog ++ [printError entry.path err])
        | (.ok entry_meta, flog) =>
          let log := log ++ flog
          let derefStep := fun (_ : Unit) =>
            if flags.dereference || !entry_meta.fileType.isSymLink then
              match recurseChild entry_meta with
              | none => none
              | some (.ok (ct, rec_exit_code), rlog) =>
                recurseLoopF fs flags recurseChild rest
                  (content ++ [entry_meta.withContent ct])
                  (exit_code.setIfGreater rec_exit_code) (log ++ rlog)
              | some (.error err, rlog) =>
                recurseLoopF fs flags recurseChild rest content
                  (exit_code.setIfGreater .minorIssue)
                  (log ++ rlog ++ [printError entry.path err])
            else
              recurseLoopF fs flags recurseChild rest
                (content ++ [entry_meta]) exit_code log
          if flags.layout = Layout.tree ∧ flags.display = Display.directoryOnly then
            match entry.ftypeRes with
            | .error e => some (.error e, log)
            | .ok ft =>
              if ft = RawType.dir then derefStep ()
              else recurseLoopF fs flags recurseChild rest content exit_code log
          else derefStep ()

/-- Fuel-checked recurse_into: one unit of fuel per recursion level. -/
def recurse_intoF (fs : FS) (fuel : Nat) (self : Meta) (depth : Nat)
    (flags : Flags) :
    Option (Except IOErr (Option (List Meta) × ExitCode) × List String) :=
  match fuel with
  | 0 => none
  | f + 1 =>
    match depth with
    | 0 => some (.ok (none, .OK), [])
    | d + 1 =>
      if flags.display = Display.directoryOnly ∧ flags.layout ≠ Layout.tree then
        some (.ok (none, .OK), [])
      else if eligibleType self.fileType flags.layout = false then
        some (.ok (none, .OK), [])
      else
        match fs.readDir self.path with
        | .error err => some (.ok (none, .minorIssue), [printError self.path err])
        | .ok entries =>
          let pseudo : Except (IOErr × List String) (List Meta × List String) :=
            if (flags.display = Display.all ∨ flags.display = Display.systemProtected)
                ∧ flags.layout ≠ Layout.tree then
              match Meta.from_path fs (self.path ++ [".."]) flags.dereference with
              | (.error e, plog) => .error (e, plog)
              | (.ok parent_meta, plog) =>
                .ok ([self.setName ".", parent_meta.setName ".."], plog)
            else .ok ([], [])
          match pseudo with
          | .error (e, plog) => some (.error e, plog)
          | .ok (content₀, log₀) =>
            recurseLoopF fs flags (fun m => recurse_intoF fs f m d flags)
              entries content₀ ExitCode.OK log₀

/-- With a child oracle that never times out, the fuel-checked loop
computes exactly the loop's value. -/
theorem recurseLoopF_eq (fs : FS) (flags : Flags) (rcF) (rc)
    (hrc : ∀ m, rcF m = some (rc m)) :
    ∀ (entries : List (Except IOErr DirEntry)) (content : List Meta)
      (code : ExitCode) (log : List String),
      recurseLoopF fs flags rcF entries content code log
        = some (recurseLoop fs flags rc entries content code log) := by
  intro entries
  induction entries with
  | nil => intro content code log; rfl
  | cons x rest ih =>
    intro content code log
    cases x with
    | error e => rfl
    | ok de =>
      cases hname : fsFileName de.path with
      | none => simp only [recurseLoopF, recurseLoop, hname]
      | some nm =>
        cases hig : flags.ignoreGlobs nm with
        | true =>
          simp only [recurseLoopF, recurseLoop, hname, hig, if_true]
          exact ih content code log
        | false =>
          cases hskip : displaySkip flags.display nm with
          | true =>
            simp only [recurseLoopF, recurseLoop, hname, hig, hskip,
              Bool.false_eq_true, if_false, if_true]
            exact ih content code log
          | false =>
            cases hfp : Meta.from_path fs de.path flags.dereference with
            | mk res flog =>
              cases res with
              | error err =>
                simp only [recurseLoopF, recurseLoop, hname, hig, hskip, hfp,
                  Bool.false_eq_true, if_false]
                exact ih _ _ _
              | ok em =>
                simp only [recurseLoopF, recurseLoop, hname, hig, hskip, hfp,
                  Bool.false_eq_true, if_false]
                have hderef :
                    (if flags.dereference || !em.fileType.isSymLink then
                      match rcF em with
                      | none => none
                      | some (.ok (ct, rec_exit_code), rlog) =>
                        recurseLoopF fs flags rcF rest
                          (content ++ [em.withContent ct])
                          (code.setIfGreater rec_exit_code) (log ++ flog ++ rlog)
                      | some (.error err, rlog) =>
                        recurseLoopF fs flags rcF rest content
                          (code.setIfGreater .minorIssue)
                          (log ++ flog ++ rlog ++ [printError de.path err])
                    else
                      recurseLoopF fs flags rcF rest (content ++ [em]) code
                        (log ++ flog))
                    = some (if flags.dereference || !em.fileType.isSymLink then
                      match rc em with
                      | (.ok (ct, rec_exit_code), rlog) =>
                        recurseLoop fs flags rc rest
                          (content ++ [em.withContent ct])
                          (code.setIfGreater rec_exit_code) (log ++ flog ++ rlog)
                      | (.error err, rlog) =>
                        recurseLoop fs flags rc rest content
                          (code.setIfGreater .minorIssue)
                          (log ++ flog ++ rlog ++ [printError de.path err])
                    else
                      recurseLoop fs flags rc rest (content ++ [em]) code
                        (log ++ flog)) := by
                  cases hd2 : (flags.dereference || !em.fileType.isSymLink) with
                  | true =>
                    simp only [if_true]
                    rw [hrc em]
                    cases hrc2 : rc em with
                    | mk res2 rlog =>
                      cases res2 with
                      | ok r => simp only [ih]
                      | error e2 => simp only [ih]
                  | false =>
                    simp only [Bool.false_eq_true, if_false]
                    exact ih _ _ _
                by_cases htree : flags.layout = Layout.tree
                    ∧ flags.display = Display.directoryOnly
                · rw [if_pos htree, if_pos htree]
                  cases hft : de.ftypeRes with
                  | error e2 => rfl
                  | ok ft =>
                    dsimp only
                    by_cases hnd : ft = RawType.dir
                    · subst hnd
                      rw [if_pos rfl, if_pos rfl]
                      exact hderef
                    · rw [if_neg hnd, if_neg hnd]
                      exact ih _ _ _
                · rw [if_neg htree, if_neg htree]
                  exact hderef

/-- C10: recurse_into terminates on every input because its recursion is
well-founded on the depth argument: any fuel bound above the depth lets
the fuel-checked execution finish with the function's value, whatever
the filesystem (symlink cycles included) answers. -/
theorem recurse_into_terminates (fs : FS) (flags : Flags) :
    ∀ (depth fuel : Nat) (m : Meta), depth < fuel →
      recurse_intoF fs fuel m depth flags
        = some (Meta.recurse_into fs m depth flags) := by
  intro depth
  induction depth with
  | zero =>
    intro fuel m hf
    match fuel, hf with
    | f + 1, _ => rfl
  | succ d ih =>
    intro fuel m hf
    match fuel, hf with
    | f + 1, hf =>
      have hdf : d < f := Nat.lt_of_succ_lt_succ hf
      simp only [recurse_intoF, Meta.recurse_into]
      by_cases hg : flags.display = Display.directoryOnly
          ∧ flags.layout ≠ Layout.tree
      · rw [if_pos hg, if_pos hg]
      · rw [if_neg hg, if_neg hg]
        cases hel : eligibleType m.fileType flags.layout with
        | false => simp [hel]
        | true =>
          simp only [hel, Bool.true_eq_false, if_false]
          cases hrd : fs.readDir m.path with
          | error err => simp [hrd]
          | ok entries =>
            simp only [hrd]
            by_cases hps : (flags.display = Display.all
                ∨ flags.display = Display.systemProtected)
                ∧ flags.layout ≠ Layout.tree
            · rw [if_pos hps]
              cases hfp : Meta.from_path fs (m.path ++ [".."]) flags.dereference with
              | mk pres plog =>
                cases pres with
                | error e => rfl
                | ok pm =>
                  exact recurseLoopF_eq fs flags _ _
                    (fun m2 => ih f m2 hdf) entries _ _ _
            · rw [if_neg hps]
              exact recurseLoopF_eq fs flags _ _
                (fun m2 => ih f m2 hdf) entries _ _ _

/-- C10 witness: with fuel three, depth two completes on fsC1. -/
theorem recurse_into_terminates_witness :
    recurse_intoF fsC1 3 metaC1 2 (lsdFlags .visibleOnly .grid false)
      = some (Meta.recurse_into fsC1 metaC1 2 (lsdFlags .visibleOnly .grid false)) :=
  recurse_into_terminates fsC1 (lsdFlags .visibleOnly .grid false) 2 3 metaC1
    (by decide)

/-! ## The two size-computation paths on a concrete tree. -/

theorem fsFileName_append (p : FsPath) (nm : String) (h : validName nm = true) :
    fsFileName (p ++ [nm]) = some nm := by
  unfold fsFileName
  rw [List.getLast?_concat]
  unfold validName at h
  simp only [decide_eq_true_eq] at h
  obtain ⟨h1, h2, h3⟩ := h
  simp [h1, h2, h3]

theorem wfEntries_mem :
    ∀ (es : List (String × FsTree)) (e : String × FsTree),
      wfEntries es = true → e ∈ es → validName e.1 = true ∧ e.2.wf = true := by
  intro es
  induction es with
  | nil => intro e _ hmem; simp at hmem
  | cons e2 rest ih =>
    intro e hwf hmem
    simp only [wfEntries, Bool.and_eq_true] at hwf
    obtain ⟨⟨⟨hv, hw⟩, -⟩, hrest⟩ := hwf
    rcases List.mem_cons.mp hmem with heq | hmem2
    · subst heq; exact ⟨hv, hw⟩
    · exact ih e hrest hmem2

theorem lookupEntry_mem :
    ∀ (es : List (String × FsTree)) (e : String × FsTree),
      wfEntries es = true → e ∈ es → lookupEntry es e.1 = some e.2 := by
  intro es
  induction es with
  | nil => intro e _ hmem; simp at hmem
  | cons e2 rest ih =>
    intro e hwf hmem
    simp only [wfEntries, Bool.and_eq_true] at hwf
    obtain ⟨⟨-, hall⟩, hrest⟩ := hwf
    rcases List.mem_cons.mp hmem with heq | hmem2
    · subst heq
      simp [lookupEntry]
    · have hne : e.1 ≠ e2.1 := by
        rw [List.all_eq_true] at hall
        have := hall e hmem2
        simpa using this
      simp only [lookupEntry]
      rw [if_neg (fun hc => hne hc.symm)]
      exact ih e hrest hmem2

theorem height_le_of_mem :
    ∀ (es : List (String × FsTree)) (e : String × FsTree),
      e ∈ es → e.2.height ≤ heightEntries es := by
  intro es
  induction es with
  | nil => intro e hmem; simp at hmem
  | cons e2 rest ih =>
    intro e hmem
    rcases List.mem_cons.mp hmem with heq | hmem2
    · subst heq
      simp only [heightEntries]
      exact le_max_left _ _
    · simp only [heightEntries]
      exact le_trans (ih e hmem2) (le_max_right _ _)

theorem lookup_append_single :
    ∀ (p : FsPath) (root t : FsTree) (nm : String),
      root.lookup p = some t → root.lookup (p ++ [nm]) = t.lookup [nm] := by
  intro p
  induction p with
  | nil =>
    intro root t nm h
    simp only [FsTree.lookup] at h
    cases h
    rfl
  | cons c p2 ih =>
    intro root t nm h
    cases root with
    | file _ => simp [FsTree.lookup] at h
    | dir n es =>
      simp only [FsTree.lookup] at h ⊢
      cases hle : lookupEntry es c with
      | none => rw [hle] at h; simp at h
      | some child =>
        rw [hle] at h
        exact ih child t nm h

theorem treeFS_lookup_child (root : FsTree) (p : FsPath) (n : Nat)
    (es : List (String × FsTree)) (e : String × FsTree)
    (hlk : root.lookup p = some (.dir n es)) (hwfe : wfEntries es = true)
    (hmem : e ∈ es) :
    root.lookup (p ++ [e.1]) = some e.2 := by
  rw [lookup_append_single p root _ e.1 hlk]
  simp only [FsTree.lookup]
  rw [lookupEntry_mem es e hwfe hmem]

theorem sizeOf_child_lt (n : Nat) (es : List (String × FsTree))
    (e : String × FsTree) (he : e ∈ es) :
    sizeOf e.2 < sizeOf (FsTree.dir n es) := by
  have h1 := List.sizeOf_lt_of_mem he
  have h2 : sizeOf e.2 < sizeOf e := by
    cases e with
    | mk a b =>
      simp only [Prod.mk.sizeOf_spec]
      omega
  simp only [FsTree.dir.sizeOf_spec]
  omega

/-- The record core a tree-backed resolution produces. -/
def treeCore (fs : FS) (p : FsPath) (md : Metadata) : MetaCore where
  name := Name.new p (FileType.new md none)
  path := p
  permissions := some (Permissions.fromMeta md)
  date := some (Date.fromMeta md)
  owner := some (Owner.fromMeta md)
  fileType := FileType.new md none
  size := some (Size.fromMeta md)
  symlink := SymLink.fromPath fs p
  indicator := Indicator.fromFileType (FileType.new md none)
  inode := some (INode.fromMeta md)
  links := some (Links.fromMeta md)
  accessControl := some (AccessControl.for_path fs p)

/-- Resolution of a path inside a tree-backed filesystem: a clean record
whose fields come from the node's stat data. -/
theorem treeFS_from_path (root t : FsTree) (p : FsPath) (deref : Bool)
    (hlk : root.lookup p = some t) :
    ∃ core : MetaCore,
      Meta.from_path (treeFS root) p deref = (.ok (.mk core none), [])
      ∧ core.path = p
      ∧ core.size = some (Size.new t.metaOf.len)
      ∧ core.fileType = FileType.new t.metaOf none
      ∧ core.fileType.isSymLink = false := by
  have hstat : (treeFS root).symlinkMetadata p = .ok t.metaOf := by
    simp [treeFS, hlk]
  have hns : ¬ t.metaOf.ftype = RawType.symlink := by
    cases t <;> simp [FsTree.metaOf]
  refine ⟨treeCore (treeFS root) p t.metaOf, ?_, rfl, rfl, rfl, ?_⟩
  · simp only [Meta.from_path, hstat]
    rw [if_neg hns]
    rfl
  · cases t <;> simp [treeCore, FsTree.metaOf, FileType.new, FileType.isSymLink]

/-- Under show-all display and tree layout, a regular-file record never
expands. -/
theorem recurse_into_tree_all_file (fs : FS) (deref : Bool) (m : Meta)
    (d : Nat) (hmft : m.fileType = FileType.regularFile) :
    Meta.recurse_into fs m d (lsdFlags .all .tree deref)
      = (.ok (none, .OK), []) := by
  cases d with
  | zero => rfl
  | succ d0 =>
    simp only [Meta.recurse_into]
    rw [if_neg (by simp [lsdFlags])]
    simp [eligibleType, hmft, lsdFlags]

/-- Under show-all display and tree layout, a directory record expands
straight into the per-entry loop: no pseudo-entries, empty initial
accumulator. -/
theorem recurse_into_tree_all_dir (fs : FS) (deref : Bool) (m : Meta)
    (d0 : Nat) (entries : List (Except IOErr DirEntry))
    (hmft : m.fileType = FileType.directory)
    (hrd : fs.readDir m.path = .ok entries) :
    Meta.recurse_into fs m (d0 + 1) (lsdFlags .all .tree deref)
      = recurseLoop fs (lsdFlags .all .tree deref)
          (fun m2 => Meta.recurse_into fs m2 d0 (lsdFlags .all .tree deref))
          entries [] .OK [] := by
  simp only [Meta.recurse_into, hrd]
  rw [if_neg (by simp [lsdFlags])]
  have hel : eligibleType m.fileType (lsdFlags .all .tree deref).layout = true := by
    simp [eligibleType, hmft, lsdFlags]
  simp only [hel, Bool.true_eq_false, if_false]
  rw [if_neg (by simp [lsdFlags])]

/-- Size aggregation leaves regular-file records untouched. -/
theorem calculate_total_size_regular (fs : FS) (fuel : Nat)
    (core : MetaCore) (content : Option (List Meta))
    (hft : core.fileType = .regularFile) :
    Meta.calculate_total_size fs fuel (.mk core content)
      = (.mk core content, []) := by
  obtain ⟨nm, pth, perms, dt, own, ft, szv, syml, ind, ino, lnk, acl⟩ := core
  dsimp only at hft
  subst hft
  simp only [Meta.calculate_total_size]
  split <;> rfl

/-- Size aggregation on a materialized directory: children first, then
own size plus their accumulated sizes. -/
theorem calculate_total_size_directory_some (fs : FS) (fuel : Nat)
    (core : MetaCore) (metas : List Meta) (sz : Size)
    (hft : core.fileType = .directory) (hsz : core.size = some sz) :
    Meta.calculate_total_size fs fuel (.mk core (some metas))
      = (.mk { core with
            size := some (Size.new (sz.get_bytes + (calcChildren fs fuel metas).2.1)) }
          (some (calcChildren fs fuel metas).1),
        (calcChildren fs fuel metas).2.2) := by
  obtain ⟨nm, pth, perms, dt, own, ft, szv, syml, ind, ino, lnk, acl⟩ := core
  dsimp only at hft hsz
  subst hft
  subst hsz
  simp only [Meta.calculate_total_size, Option.isNone_some, Bool.false_eq_true,
    if_false]

/-- Size aggregation on a depth-truncated directory falls back to the
filesystem re-walk. -/
theorem calculate_total_size_directory_none (fs : FS) (fuel : Nat)
    (core : MetaCore) (sz : Size)
    (hft : core.fileType = .directory) (hsz : core.size = some sz) :
    Meta.calculate_total_size fs fuel (.mk core none)
      = (.mk { core with
            size := some (Size.new (Meta.calculate_total_file_size fs fuel core.path).1) }
          none,
        (Meta.calculate_total_file_size fs fuel core.path).2) := by
  obtain ⟨nm, pth, perms, dt, own, ft, szv, syml, ind, ino, lnk, acl⟩ := core
  dsimp only at hft hsz
  subst hft
  subst hsz
  simp only [Meta.calculate_total_size, Option.isNone_some, Bool.false_eq_true,
    if_false]

/-- The fallback walk over the mapped entries of a directory sums the
children's subtree sizes. -/
theorem tree_walk_entries (root : FsTree) (f : Nat) (p : FsPath) :
    ∀ (es' : List (String × FsTree)),
      (∀ e ∈ es', Meta.calculate_total_file_size (treeFS root) f (p ++ [e.1])
          = (e.2.totalSize, [])) →
      walkSize (fun q => Meta.calculate_total_file_size (treeFS root) f q) p
          (es'.map (fun e => .ok ⟨p ++ [e.1], .ok e.2.metaOf.ftype⟩))
        = (totalEntries es', []) := by
  intro es'
  induction es' with
  | nil => intro _; rfl
  | cons e rest ih =>
    intro hq
    simp only [List.map_cons, walkSize]
    rw [hq e (List.mem_cons_self e rest),
      ih (fun e2 h2 => hq e2 (List.mem_cons_of_mem e h2))]
    simp [totalEntries]

/-- The fallback walk on a tree-backed filesystem computes exactly the
subtree total, reporting nothing. -/
theorem tree_walk_correct (root : FsTree) :
    ∀ (N : Nat) (t : FsTree), sizeOf t ≤ N →
      ∀ (p : FsPath) (fuel : Nat), t.wf = true → root.lookup p = some t →
        t.height + 1 ≤ fuel →
        Meta.calculate_total_file_size (treeFS root) fuel p
          = (t.totalSize, []) := by
  intro N
  induction N with
  | zero =>
    intro t hsz
    exfalso
    cases t with
    | file len => simp only [FsTree.file.sizeOf_spec] at hsz; omega
    | dir n es => simp only [FsTree.dir.sizeOf_spec] at hsz; omega
  | succ N ihN =>
    intro t hsz p fuel hwf hlk hfuel
    have hstat : (treeFS root).symlinkMetadata p = .ok t.metaOf := by
      simp [treeFS, hlk]
    obtain ⟨f, rfl⟩ : ∃ f, fuel = f + 1 := ⟨fuel - 1, by omega⟩
    cases t with
    | file len =>
      simp only [Meta.calculate_total_file_size, hstat]
      rfl
    | dir n es =>
      have hwfe : wfEntries es = true := by simpa [FsTree.wf] using hwf
      have hrd : (treeFS root).readDir p
          = .ok (es.map (fun e => .ok ⟨p ++ [e.1], .ok e.2.metaOf.ftype⟩)) := by
        simp [treeFS, hlk]
      have hq : ∀ e ∈ es,
          Meta.calculate_total_file_size (treeFS root) f (p ++ [e.1])
            = (e.2.totalSize, []) := by
        intro e hmem
        have hszc : sizeOf e.2 ≤ N := by
          have := sizeOf_child_lt n es e hmem
          omega
        obtain ⟨hv, hw⟩ := wfEntries_mem es e hwfe hmem
        have hlkc := treeFS_lookup_child root p n es e hlk hwfe hmem
        have hhe : e.2.height + 1 ≤ f := by
          have h1 := height_le_of_mem es e hmem
          have h2 : (FsTree.dir n es).height = heightEntries es + 1 := rfl
          omega
        exact ihN e.2 hszc (p ++ [e.1]) f hw hlkc hhe
      simp only [Meta.calculate_total_file_size, hstat, hrd]
      rw [tree_walk_entries root f p es hq]
      rfl

/-- Walking the mapped entries of a well-formed directory under show-all
tree flags appends exactly the expanded children, keeps the OK code, and
reports nothing; aggregating those children afterwards sums the
subtree totals. -/
theorem tree_loop_sum (root : FsTree) (deref : Bool) (fuel : Nat) (p : FsPath)
    (d0 : Nat) :
    ∀ (es' : List (String × FsTree)) (acc : List Meta),
      (∀ e ∈ es', ∃ (core : MetaCore) (ct : Option (List Meta)),
        Meta.from_path (treeFS root) (p ++ [e.1]) deref = (.ok (.mk core none), [])
        ∧ core.fileType.isSymLink = false
        ∧ validName e.1 = true
        ∧ Meta.recurse_into (treeFS root) (.mk core none) d0
            (lsdFlags .all .tree deref) = (.ok (ct, .OK), [])
        ∧ (Meta.calculate_total_size (treeFS root) fuel (.mk core ct)).1.size
            = some (Size.new e.2.totalSize)
        ∧ (Meta.calculate_total_size (treeFS root) fuel (.mk core ct)).2 = []) →
      ∃ l, recurseLoop (treeFS root) (lsdFlags .all .tree deref)
            (fun m2 => Meta.recurse_into (treeFS root) m2 d0 (lsdFlags .all .tree deref))
            (es'.map (fun e => .ok ⟨p ++ [e.1], .ok e.2.metaOf.ftype⟩)) acc .OK []
          = (.ok (some (acc ++ l), .OK), [])
        ∧ (calcChildren (treeFS root) fuel l).2.1 = totalEntries es'
        ∧ (calcChildren (treeFS root) fuel l).2.2 = [] := by
  intro es'
  induction es' with
  | nil =>
    intro acc _
    exact ⟨[], by simp [recurseLoop], rfl, rfl⟩
  | cons e rest ih =>
    intro acc hq
    obtain ⟨core, ct, hfp, hsl, hv, hrec, hc1, hc2⟩ :=
      hq e (List.mem_cons_self e rest)
    have hstep := recurseLoop_cons_rec_ok (treeFS root) (lsdFlags .all .tree deref)
      (fun m2 => Meta.recurse_into (treeFS root) m2 d0 (lsdFlags .all .tree deref))
      ⟨p ++ [e.1], .ok e.2.metaOf.ftype⟩
      (rest.map (fun e2 => .ok ⟨p ++ [e2.1], .ok e2.2.metaOf.ftype⟩))
      acc .OK [] e.1 (.mk core none) [] ct .OK []
      (fsFileName_append p e.1 hv) rfl rfl hfp (Or.inl (by simp [lsdFlags]))
      (Or.inr hsl) hrec
    obtain ⟨l2, hloop2, hsum2, hlog2⟩ :=
      ih (acc ++ [(Meta.mk core none).withContent ct])
        (fun e2 h2 => hq e2 (List.mem_cons_of_mem e h2))
    refine ⟨Meta.mk core ct :: l2, ?_, ?_, ?_⟩
    · rw [List.map_cons, hstep]
      have hl : acc ++ (Meta.mk core ct :: l2)
          = (acc ++ [(Meta.mk core none).withContent ct]) ++ l2 := by
        simp [Meta.withContent]
      rw [hl]
      exact hloop2
    · simp only [calcChildren, hc1, hsum2, Size.get_bytes, Size.new]
      rfl
    · simp only [calcChildren, hc2, hlog2]
      rfl

/-- Resolving, fully expanding, and aggregating any well-formed subtree
of a tree-backed filesystem under show-all tree flags yields a clean
traversal whose aggregated size is the subtree total. -/
theorem tree_size_correct (root : FsTree) (deref : Bool) (fuel : Nat) :
    ∀ (N : Nat) (t : FsTree), sizeOf t ≤ N →
      ∀ (p : FsPath) (d : Nat), t.wf = true → root.lookup p = some t →
        t.height ≤ d →
        ∃ (core : MetaCore) (ct : Option (List Meta)),
          Meta.from_path (treeFS root) p deref = (.ok (.mk core none), [])
          ∧ core.path = p
          ∧ core.size = some (Size.new t.metaOf.len)
          ∧ core.fileType = FileType.new t.metaOf none
          ∧ core.fileType.isSymLink = false
          ∧ Meta.recurse_into (treeFS root) (.mk core none) d
              (lsdFlags .all .tree deref) = (.ok (ct, .OK), [])
          ∧ (Meta.calculate_total_size (treeFS root) fuel (.mk core ct)).1.size
              = some (Size.new t.totalSize)
          ∧ (Meta.calculate_total_size (treeFS root) fuel (.mk core ct)).2 = [] := by
  intro N
  induction N with
  | zero =>
    intro t hsz
    exfalso
    cases t with
    | file len => simp only [FsTree.file.sizeOf_spec] at hsz; omega
    | dir n es => simp only [FsTree.dir.sizeOf_spec] at hsz; omega
  | succ N ihN =>
    intro t hsz p d hwf hlk hd
    obtain ⟨core, hfp, hpath, hsize, hft, hsl⟩ := treeFS_from_path root t p deref hlk
    cases t with
    | file len =>
      have hreg : core.fileType = .regularFile := by rw [hft]; rfl
      refine ⟨core, none, hfp, hpath, hsize, hft, hsl, ?_, ?_, ?_⟩
      · exact recurse_into_tree_all_file (treeFS root) deref (.mk core none) d hreg
      · rw [calculate_total_size_regular (treeFS root) fuel core none hreg]
        show core.size = _
        rw [hsize]
        rfl
      · rw [calculate_total_size_regular (treeFS root) fuel core none hreg]
    | dir n es =>
      obtain ⟨d0, rfl⟩ : ∃ d0, d = d0 + 1 := by
        refine ⟨d - 1, ?_⟩
        have : (FsTree.dir n es).height = heightEntries es + 1 := rfl
        omega
      have hwfe : wfEntries es = true := by simpa [FsTree.wf] using hwf
      have hdir : core.fileType = .directory := by rw [hft]; rfl
      have hrd : (treeFS root).readDir p
          = .ok (es.map (fun e => .ok ⟨p ++ [e.1], .ok e.2.metaOf.ftype⟩)) := by
        simp [treeFS, hlk]
      have hq : ∀ e ∈ es, ∃ (core2 : MetaCore) (ct2 : Option (List Meta)),
          Meta.from_path (treeFS root) (p ++ [e.1]) deref
            = (.ok (.mk core2 none), [])
          ∧ core2.fileType.isSymLink = false
          ∧ validName e.1 = true
          ∧ Meta.recurse_into (treeFS root) (.mk core2 none) d0
              (lsdFlags .all .tree deref) = (.ok (ct2, .OK), [])
          ∧ (Meta.calculate_total_size (treeFS root) fuel (.mk core2 ct2)).1.size
              = some (Size.new e.2.totalSize)
          ∧ (Meta.calculate_total_size (treeFS root) fuel (.mk core2 ct2)).2 = [] := by
        intro e hmem
        have hszc : sizeOf e.2 ≤ N := by
          have := sizeOf_child_lt n es e hmem
          omega
        obtain ⟨hv, hw⟩ := wfEntries_mem es e hwfe hmem
        have hlkc := treeFS_lookup_child root p n es e hlk hwfe hmem
        have hhe : e.2.height ≤ d0 := by
          have h1 := height_le_of_mem es e hmem
          have h2 : (FsTree.dir n es).height = heightEntries es + 1 := rfl
          omega
        obtain ⟨core2, ct2, hfp2, -, -, -, hsl2, hrec2, hcs1, hcs2⟩ :=
          ihN e.2 hszc (p ++ [e.1]) d0 hw hlkc hhe
        exact ⟨core2, ct2, hfp2, hsl2, hv, hrec2, hcs1, hcs2⟩
      obtain ⟨l, hloop, hsum, hlog⟩ := tree_loop_sum root deref fuel p d0 es [] hq
      simp only [List.nil_append] at hloop
      have hrd2 : (treeFS root).readDir (Meta.mk core none).path
          = .ok (es.map (fun e => .ok ⟨p ++ [e.1], .ok e.2.metaOf.ftype⟩)) := by
        show (treeFS root).readDir core.path = _
        rw [hpath]
        exact hrd
      have hrec := recurse_into_tree_all_dir (treeFS root) deref (.mk core none)
        d0 _ hdir hrd2
      refine ⟨core, some l, hfp, hpath, hsize, hft, hsl, ?_, ?_, ?_⟩
      · rw [hrec]
        exact hloop
      · rw [calculate_total_size_directory_some (treeFS root) fuel core l
          (Size.new (FsTree.dir n es).metaOf.len) hdir hsize]
        show some _ = _
        rw [hsum]
        rfl
      · rw [calculate_total_size_directory_some (treeFS root) fuel core l
          (Size.new (FsTree.dir n es).metaOf.len) hdir hsize]
        exact hlog

/-- C9 counterexample: on a directory holding one hidden 10-byte file
under visible-only display, the primary aggregation over the expanded
tree yields 100 (the hidden child is filtered out of the tree), while
the fallback re-walk of a depth-truncated directory yields 110: the two
size-computation paths disagree on the identical on-disk subtree. -/
theorem size_paths_counterexample :
    primarySize (FsTree.dir 100 [(".h", .file 10)])
        (lsdFlags .visibleOnly .tree false) 5 5 = some (some (Size.new 100))
    ∧ truncatedSize (FsTree.dir 100 [(".h", .file 10)])
        (lsdFlags .visibleOnly .tree false) 5 = some (some (Size.new 110))
    ∧ Size.new 100 ≠ Size.new 110 := ⟨rfl, rfl, by decide⟩

/-- C9 amended: on a well-formed symlink-free subtree, under show-all
display with tree layout (so that no entry is filtered and no pseudo
entries are synthesized), with enough depth to expand fully and enough
fuel for the fallback walk, the primary aggregation path and the
fallback re-walk path both compute the subtree total: the two paths are
numerically equivalent. -/
theorem size_paths_equivalent (n : Nat) (es : List (String × FsTree))
    (deref : Bool) (depth fuel : Nat)
    (hwf : (FsTree.dir n es).wf = true)
    (hdep : (FsTree.dir n es).height ≤ depth)
    (hfuel : (FsTree.dir n es).height + 1 ≤ fuel) :
    primarySize (FsTree.dir n es) (lsdFlags .all .tree deref) depth fuel
      = some (some (Size.new (FsTree.dir n es).totalSize))
    ∧ truncatedSize (FsTree.dir n es) (lsdFlags .all .tree deref) fuel
      = some (some (Size.new (FsTree.dir n es).totalSize)) := by
  have hlk : (FsTree.dir n es).lookup [] = some (FsTree.dir n es) := rfl
  obtain ⟨core, ct, hfp, hpath, hsize, hft, hsl, hrec, hc1, hc2⟩ :=
    tree_size_correct (FsTree.dir n es) deref fuel (sizeOf (FsTree.dir n es))
      (FsTree.dir n es) (Nat.le_refl _) [] depth hwf hlk hdep
  have hfp2 : Meta.from_path (treeFS (FsTree.dir n es)) []
      (lsdFlags Display.all Layout.tree deref).dereference
      = (.ok (Meta.mk core none), []) := hfp
  constructor
  · simp only [primarySize, hfp2, hrec]
    show some ((Meta.calculate_total_size _ fuel (Meta.mk core ct)).1.size) = _
    rw [hc1]
  · simp only [truncatedSize, hfp2]
    show some ((Meta.calculate_total_size _ fuel (Meta.mk core none)).1.size) = _
    have hdir : core.fileType = .directory := by rw [hft]; rfl
    rw [calculate_total_size_directory_none (treeFS (FsTree.dir n es)) fuel core
      (Size.new (FsTree.dir n es).metaOf.len) hdir hsize]
    show some (some (Size.new
      (Meta.calculate_total_file_size (treeFS (FsTree.dir n es)) fuel core.path).1)) = _
    rw [hpath, tree_walk_correct (FsTree.dir n es) (sizeOf (FsTree.dir n es))
      (FsTree.dir n es) (Nat.le_refl _) [] fuel hwf hlk hfuel]

/-- C9 witness: a two-level concrete tree totals 167 on both paths. -/
theorem size_paths_equivalent_witness :
    primarySize
        (FsTree.dir 100 [("a", .file 10), ("sub", FsTree.dir 50 [("b", .file 7)])])
        (lsdFlags .all .tree false) 3 4
      = some (some (Size.new
          (FsTree.dir 100 [("a", .file 10), ("sub", FsTree.dir 50 [("b", .file 7)])]).totalSize))
    ∧ truncatedSize
        (FsTree.dir 100 [("a", .file 10), ("sub", FsTree.dir 50 [("b", .file 7)])])
        (lsdFlags .all .tree false) 4
      = some (some (Size.new
          (FsTree.dir 100 [("a", .file 10), ("sub", FsTree.dir 50 [("b", .file 7)])]).totalSize)) :=
  size_paths_equivalent 100 [("a", .file 10), ("sub", FsTree.dir 50 [("b", .file 7)])]
    false 3 4 (by decide) (by decide) (by decide)

end Lsd
